import Mathlib

/-!
Verification of the lnbits-backup scheduling-and-execution engine.

The definitions below are a shallow embedding of the repository's code:
`tasks.py` (`execute_database_backup`, `cleanup_old_backups`,
`check_and_process_backups`) and `views_api.py` (`api_manual_backup`).
Python `datetime` values (always timezone-aware UTC in the engine, so
`ensure_timezone_aware` is the identity) are modelled as a record of calendar
fields; `timedelta` addition and `dateutil.relativedelta(months=1)` are
modelled by exact epoch arithmetic and calendar-month arithmetic respectively,
following Python's semantics for valid UTC datetimes.
-/

/-- A timezone-aware UTC `datetime.datetime` value: calendar fields plus
microseconds, exactly the precision Python keeps. -/
structure PyDateTime where
  year : Int
  month : Int
  day : Int
  hour : Int
  minute : Int
  second : Int
  microsecond : Int
deriving DecidableEq, Repr

/-- Days since 1970-01-01 of a civil date (proleptic Gregorian calendar),
the standard civil-from-days/days-from-civil correspondence used by
`datetime`'s ordinal arithmetic. -/
def daysFromCivil (y m d : Int) : Int :=
  let y2 : Int := if m ≤ 2 then y - 1 else y
  let era : Int := Int.ediv y2 400
  let yoe : Int := y2 - era * 400
  let mp : Int := Int.emod (m + 9) 12
  let doy : Int := Int.ediv (153 * mp + 2) 5 + d - 1
  let doe : Int := yoe * 365 + Int.ediv yoe 4 - Int.ediv yoe 100 + doy
  era * 146097 + doe - 719468

/-- Inverse of `daysFromCivil`: (year, month, day) of a day count. -/
def civilFromDays (z0 : Int) : Int × Int × Int :=
  let z : Int := z0 + 719468
  let era : Int := Int.ediv z 146097
  let doe : Int := z - era * 146097
  let yoe : Int :=
    Int.ediv (doe - Int.ediv doe 1460 + Int.ediv doe 36524 - Int.ediv doe 146096) 365
  let doy : Int := doe - (365 * yoe + Int.ediv yoe 4 - Int.ediv yoe 100)
  let mp : Int := Int.ediv (5 * doy + 2) 153
  let d : Int := doy - Int.ediv (153 * mp + 2) 5 + 1
  let m : Int := if mp < 10 then mp + 3 else mp - 9
  let y : Int := yoe + era * 400
  (if m ≤ 2 then y + 1 else y, m, d)

/-- Seconds since the epoch of a datetime's whole-second part. -/
def toEpochSec (dt : PyDateTime) : Int :=
  daysFromCivil dt.year dt.month dt.day * 86400
    + dt.hour * 3600 + dt.minute * 60 + dt.second

/-- Rebuild a datetime from epoch seconds, carrying a microsecond field. -/
def fromEpochSec (t micro : Int) : PyDateTime :=
  let days : Int := Int.ediv t 86400
  let rem : Int := t - days * 86400
  let c := civilFromDays days
  { year := c.1, month := c.2.1, day := c.2.2
    hour := Int.ediv rem 3600
    minute := Int.ediv (Int.emod rem 3600) 60
    second := Int.emod rem 60
    microsecond := micro }

/-- `dt + timedelta(seconds=s)`: exact time arithmetic, as Python's
`timedelta` performs on aware UTC datetimes. -/
def addSeconds (dt : PyDateTime) (s : Int) : PyDateTime :=
  fromEpochSec (toEpochSec dt + s) dt.microsecond

/-- Gregorian leap-year rule. -/
def isLeap (y : Int) : Bool :=
  (Int.emod y 4 == 0 && Int.emod y 100 != 0) || Int.emod y 400 == 0

/-- Number of days in a month. -/
def daysInMonth (y m : Int) : Int :=
  if m == 2 then (if isLeap y then 29 else 28)
  else if m == 4 || m == 6 || m == 9 || m == 11 then 30
  else 31

/-- `dt + relativedelta(months=1)`: increment the month, roll the year, and
clamp the day-of-month to the target month's length (dateutil semantics). -/
def addOneMonth (dt : PyDateTime) : PyDateTime :=
  let m : Int := dt.month + 1
  let y : Int := if m > 12 then dt.year + 1 else dt.year
  let m2 : Int := if m > 12 then m - 12 else m
  { dt with year := y, month := m2, day := min dt.day (daysInMonth y m2) }

/-- `a <= b` on aware UTC datetimes (instant order; for valid datetimes this
coincides with Python's field-tuple comparison). -/
def dtLe (a b : PyDateTime) : Bool :=
  decide (toEpochSec a < toEpochSec b
    ∨ (toEpochSec a = toEpochSec b ∧ a.microsecond ≤ b.microsecond))

/-- `a < b` on aware UTC datetimes. -/
def dtLt (a b : PyDateTime) : Bool :=
  decide (toEpochSec a < toEpochSec b
    ∨ (toEpochSec a = toEpochSec b ∧ a.microsecond < b.microsecond))

example : daysFromCivil 1970 1 1 = 0 := by decide
example : daysFromCivil 2024 2 29 = 19782 := by decide
example : civilFromDays 19782 = (2024, 2, 29) := by decide
example :
    addSeconds ⟨2024, 12, 31, 23, 30, 0, 0⟩ 3600 = ⟨2025, 1, 1, 0, 30, 0, 0⟩ := by
  decide
example :
    addOneMonth ⟨2024, 1, 31, 5, 0, 0, 0⟩ = ⟨2024, 2, 29, 5, 0, 0, 0⟩ := by
  decide
example :
    addOneMonth ⟨2023, 12, 15, 5, 0, 0, 0⟩ = ⟨2024, 1, 15, 5, 0, 0, 0⟩ := by
  decide
example : dtLt ⟨2024, 1, 1, 0, 0, 0, 0⟩ ⟨2024, 1, 1, 0, 0, 0, 1⟩ = true := by decide

/-- Zero-padded two-digit decimal rendering, as `strftime` produces for
`%m`, `%d`, `%H`, `%M`, `%S`. -/
def pad2 (n : Int) : List Char :=
  [Nat.digitChar (n.toNat / 10 % 10), Nat.digitChar (n.toNat % 10)]

/-- Four-digit decimal rendering, as `strftime` produces for `%Y` on
four-digit years. -/
def pad4 (n : Int) : List Char :=
  [Nat.digitChar (n.toNat / 1000 % 10), Nat.digitChar (n.toNat / 100 % 10),
   Nat.digitChar (n.toNat / 10 % 10), Nat.digitChar (n.toNat % 10)]

/-- `datetime.now(timezone.utc).strftime("%Y%m%d_%H%M%S")`: the
second-granularity timestamp embedded in the artifact filename
(`tasks.py` line 33). The microsecond field is dropped. -/
def formatTimestamp (dt : PyDateTime) : String :=
  String.mk (pad4 dt.year ++ pad2 dt.month ++ pad2 dt.day ++ ['_']
    ++ pad2 dt.hour ++ pad2 dt.minute ++ pad2 dt.second)

/-- The artifact base filename `f"lnbits_backup_{timestamp}"`
(`tasks.py` line 34). -/
def backupBaseFilename (dt : PyDateTime) : String :=
  "lnbits_backup_" ++ formatTimestamp dt

example : formatTimestamp ⟨2024, 3, 7, 9, 5, 30, 123456⟩ = "20240307_090530" := by
  decide

/-- Does `needle` start `hay`? (character-list prefix test). -/
def listStartsWith (needle hay : List Char) : Bool :=
  match needle, hay with
  | [], _ => true
  | _ :: _, [] => false
  | a :: as, b :: bs => a == b && listStartsWith as bs

/-- Substring containment on character lists, modelling Python's
`needle in hay`. -/
def listContainsSub (hay needle : List Char) : Bool :=
  match hay with
  | [] => needle.isEmpty
  | _ :: rest => listStartsWith needle hay || listContainsSub rest needle

/-- Python's `needle in hay` on strings. -/
def strContains (hay needle : String) : Bool :=
  listContainsSub hay.data needle.data

/-- Python's `str.lower()` (ASCII case folding, which is all a database URL
needs). -/
def strToLower (s : String) : String :=
  String.mk (s.data.map Char.toLower)

/-- Python's `str.startswith`. -/
def strStartsWith (s pre : String) : Bool :=
  listStartsWith pre.data s.data

/-- Python's `str.endswith`. -/
def strEndsWith (s suf : String) : Bool :=
  listStartsWith suf.data.reverse s.data.reverse

/-- Replace every occurrence of `pat` in the list, left to right, as
Python's `str.replace` does (nonempty pattern). -/
def listReplace (pat rep : List Char) : List Char → List Char
  | [] => []
  | c :: rest =>
    if listStartsWith pat (c :: rest) && !pat.isEmpty then
      rep ++ listReplace pat rep (List.drop (pat.length - 1) rest)
    else
      c :: listReplace pat rep rest
termination_by l => l.length
decreasing_by
  all_goals simp only [List.length_drop, List.length_cons]
  all_goals omega

/-- Python's `str.replace(pat, rep)`. -/
def strReplace (s pat rep : String) : String :=
  String.mk (listReplace pat.data rep.data s.data)

example : strContains "postgresql://u:p@h/db" "postgres" = true := by decide
example : strContains "sqlite:///data/db.sqlite3" "postgres" = false := by decide

/-- The schedule record (`models.py` `BackupSchedule`); datetimes persisted
as integer timestamps are held as `Int` epoch values. -/
structure BackupSchedule where
  id : String
  name : String
  wallet : Option String
  backup_path : String
  frequency_type : String
  start_datetime : PyDateTime
  next_backup_date : PyDateTime
  retention_count : Int
  active : Bool
  end_datetime : Option PyDateTime
  compress : Bool
  created_at : Option Int
  last_error : Option String
  last_error_time : Option Int
  last_success_time : Option Int
  last_backup_path : Option String
  last_backup_size : Option Int
deriving DecidableEq, Repr

/-- The sqlite database path derivation of `execute_database_backup`
(`tasks.py` lines 74-80). -/
def sqliteDbPath (db_url : String) : String :=
  if strStartsWith db_url "sqlite:///" then strReplace db_url "sqlite:///" ""
  else if strStartsWith db_url "sqlite://" then strReplace db_url "sqlite://" ""
  else "data/database.sqlite3"

/-- The environment a single executor call runs against: the configured
connection string, the clock, and the success/failure of each external
effect the executor performs (directory creation, `pg_dump`, the sqlite
`VACUUM INTO` snapshot, the fallback file copy, gzip compression, `stat`).
Each failing effect raises in Python; here it yields an `Except.error`. -/
structure ExecEnv where
  db_url : String
  now : PyDateTime
  mkdir_ok : Bool
  pg_dump_found : Bool
  pg_dump_ok : Bool
  pg_dump_stderr : String
  db_file_exists : Bool
  vacuum_ok : Bool
  copy_ok : Bool
  copy_error : String
  compress_ok : Bool
  compress_error : String
  stat_ok : Bool
  stat_error : String
  file_size : Int

/-- The body of `execute_database_backup` (`tasks.py` lines 28-127) up to
its top-level `except`: every failure is an `Except.error` carrying the
message Python would raise. The retention pass the executor triggers before
returning is modelled separately by `cleanup_old_backups`, since it never
raises and does not affect the returned triple. -/
def execInner (env : ExecEnv) (s : BackupSchedule) : Except String (String × Int) :=
  if !env.mkdir_ok then
    Except.error ("Cannot create backup directory: " ++ s.backup_path)
  else
    let base := backupBaseFilename env.now
    let produced : Except String String :=
      if strContains (strToLower env.db_url) "postgres" then
        if !env.pg_dump_found then
          Except.error "pg_dump not found. Please install PostgreSQL client tools."
        else if !env.pg_dump_ok then
          Except.error ("pg_dump failed: " ++ env.pg_dump_stderr)
        else Except.ok (s.backup_path ++ "/" ++ base ++ ".sql")
      else
        let db_path := sqliteDbPath env.db_url
        if !env.db_file_exists then
          Except.error ("Database file not found: " ++ db_path)
        else if env.vacuum_ok || env.copy_ok then
          Except.ok (s.backup_path ++ "/" ++ base ++ ".sqlite3")
        else Except.error env.copy_error
    match produced with
    | Except.error e => Except.error e
    | Except.ok bf =>
      let afterCompress : Except String String :=
        if s.compress then
          if !env.compress_ok then Except.error env.compress_error
          else Except.ok (bf ++ ".gz")
        else Except.ok bf
      match afterCompress with
      | Except.error e => Except.error e
      | Except.ok bf2 =>
        if !env.stat_ok then Except.error env.stat_error
        else Except.ok (bf2, env.file_size)

/-- `execute_database_backup` (`tasks.py` lines 23-132): the top-level
`except Exception` converts any raised error into `(False, "", 0)`. -/
def execute_database_backup (env : ExecEnv) (s : BackupSchedule) :
    Bool × String × Int :=
  match execInner env s with
  | Except.ok r => (true, r.1, r.2)
  | Except.error _ => (false, "", 0)

/-- A file in the backup directory: its name and its modification time. -/
structure BFile where
  name : String
  mtime : Int
deriving DecidableEq, Repr

/-- The four glob patterns of `cleanup_old_backups` (`tasks.py` line 139). -/
def backupExts : List String := [".sql", ".sql.gz", ".sqlite3", ".sqlite3.gz"]

/-- Whether a file matches the glob pattern `lnbits_backup_*` followed by
the extension. -/
def matchesExt (ext : String) (f : BFile) : Bool :=
  strStartsWith f.name "lnbits_backup_" && strEndsWith f.name ext

/-- The `all_backups` list built per extension (`tasks.py` lines 140-143). -/
def globBackups (files : List BFile) : List BFile :=
  backupExts.flatMap (fun ext => files.filter (matchesExt ext))

/-- Newest-first relation on files, the sort key of `tasks.py` line 146. -/
def mtimeGe (a b : BFile) : Prop := b.mtime ≤ a.mtime

instance : DecidableRel mtimeGe :=
  fun a b => inferInstanceAs (Decidable (b.mtime ≤ a.mtime))

instance : IsTotal BFile mtimeGe := ⟨fun a b => le_total b.mtime a.mtime⟩

instance : IsTrans BFile mtimeGe := ⟨fun _ _ _ hab hbc => le_trans hbc hab⟩

/-- Sort by modification time, newest first; a stable sort, as Python's
`list.sort(key=..., reverse=True)` is. -/
def sortNewestFirst (l : List BFile) : List BFile := l.insertionSort mtimeGe

/-- Python's `l[i:]` slice, including negative-index semantics: a negative
start counts from the end and clamps at zero. -/
def pySliceFrom (i : Int) (l : List BFile) : List BFile :=
  if 0 ≤ i then l.drop i.toNat else l.drop ((l.length + i).toNat)

/-- `cleanup_old_backups` (`tasks.py` lines 135-161) as a function from the
directory listing to the directory listing after the cleanup. `unlinkFails`
says which `unlink` calls raise; a raising `unlink` jumps to the function's
single `except` handler, so the file that failed and every file after it in
the deletion list remain. The handler swallows the exception, so the caller
always receives a normal return. -/
def cleanup_old_backups (retention_count : Int) (files : List BFile)
    (unlinkFails : BFile → Bool) : List BFile :=
  let all_backups := sortNewestFirst (globBackups files)
  if retention_count < (all_backups.length : Int) then
    let backups_to_delete := pySliceFrom retention_count all_backups
    let deleted := backups_to_delete.takeWhile (fun f => !unlinkFails f)
    files.filter (fun f => !(deleted.contains f))
  else files

example :
    cleanup_old_backups 3
      [⟨"lnbits_backup_a.sql", 1⟩, ⟨"lnbits_backup_b.sql", 2⟩,
       ⟨"lnbits_backup_c.sql", 3⟩, ⟨"lnbits_backup_d.sql", 4⟩]
      (fun _ => false)
    = [⟨"lnbits_backup_b.sql", 2⟩, ⟨"lnbits_backup_c.sql", 3⟩,
       ⟨"lnbits_backup_d.sql", 4⟩] := by decide

example :
    cleanup_old_backups (-1)
      [⟨"lnbits_backup_a.sql", 1⟩, ⟨"lnbits_backup_b.sql", 2⟩,
       ⟨"lnbits_backup_c.sql", 3⟩]
      (fun _ => false)
    = [⟨"lnbits_backup_b.sql", 2⟩, ⟨"lnbits_backup_c.sql", 3⟩] := by decide

example :
    cleanup_old_backups 1
      [⟨"lnbits_backup_a.sql", 1⟩, ⟨"lnbits_backup_b.sql", 2⟩,
       ⟨"lnbits_backup_c.sql", 3⟩, ⟨"lnbits_backup_d.sql", 4⟩]
      (fun f => f.mtime == 3)
    = [⟨"lnbits_backup_a.sql", 1⟩, ⟨"lnbits_backup_b.sql", 2⟩,
       ⟨"lnbits_backup_c.sql", 3⟩, ⟨"lnbits_backup_d.sql", 4⟩] := by decide

/-- A backup-history row (`models.py` `BackupHistory`); the opaque generated
row id is omitted, the remaining fields are as the crud layer writes them. -/
structure HistoryRecord where
  schedule_id : String
  status : String
  file_path : Option String
  file_size : Option Int
  error_message : Option String
  timestamp : Int
deriving DecidableEq, Repr

/-- One write the poll loop issues against the schedule/history stores,
mirroring the crud functions `check_and_process_backups` calls. -/
inductive StoreOp where
  | createHistory (schedule_id status : String) (file_path : Option String)
      (file_size : Option Int) (error_message : Option String)
  | updateSuccess (schedule_id : String) (t : Int) (path : String) (size : Int)
  | updateError (schedule_id : String) (message : String) (t : Int)
  | updateNext (schedule_id : String) (d : PyDateTime)
  | deactivate (schedule_id : String)
deriving DecidableEq, Repr

/-- The schedule id a store write targets. -/
def opTarget : StoreOp → String
  | StoreOp.createHistory sid _ _ _ _ => sid
  | StoreOp.updateSuccess sid _ _ _ => sid
  | StoreOp.updateError sid _ _ => sid
  | StoreOp.updateNext sid _ => sid
  | StoreOp.deactivate sid => sid

/-- The frequency-offset update of `check_and_process_backups`
(`tasks.py` lines 274-290): the four known frequencies advance
`next_backup_date` from the tick's current time; any other value leaves the
in-memory schedule untouched. -/
def advanceNext (s : BackupSchedule) (now : PyDateTime) : BackupSchedule :=
  if s.frequency_type == "hourly" then
    { s with next_backup_date := addSeconds now 3600 }
  else if s.frequency_type == "daily" then
    { s with next_backup_date := addSeconds now 86400 }
  else if s.frequency_type == "weekly" then
    { s with next_backup_date := addSeconds now 604800 }
  else if s.frequency_type == "monthly" then
    { s with next_backup_date := addOneMonth now }
  else s

/-- Whether the end-of-life guard of `tasks.py` lines 216-222 fires:
`end_datetime` is set and `current_time > end_datetime`. -/
def endExpired (s : BackupSchedule) (now : PyDateTime) : Bool :=
  match s.end_datetime with
  | some e => dtLt e now
  | none => false

/-- Per-schedule body of the poll tick (`tasks.py` lines 189-316), computing
the store writes for one fetched schedule plus the updated deactivated-id
working set. `exec` is the backup attempt (the call to
`execute_database_backup`), abstracted over its filesystem environment. -/
def processSchedule (exec : BackupSchedule → Bool × String × Int)
    (now : PyDateTime) (deact : List String) (s : BackupSchedule) :
    List StoreOp × List String :=
  if deact.contains s.id then ([], deact)
  else if dtLt now s.start_datetime then ([], deact)
  else if endExpired s now then ([StoreOp.deactivate s.id], s.id :: deact)
  else if dtLe s.next_backup_date now then
    let r := exec s
    let statusOps :=
      if r.1 then
        [StoreOp.createHistory s.id "success" (some r.2.1) (some r.2.2) none,
         StoreOp.updateSuccess s.id (toEpochSec now) r.2.1 r.2.2]
      else
        [StoreOp.createHistory s.id "error" none none
           (some "Backup execution failed"),
         StoreOp.updateError s.id "Backup execution failed" (toEpochSec now)]
    let s2 := advanceNext s now
    (statusOps ++ [StoreOp.updateNext s.id s2.next_backup_date], deact)
  else ([], deact)

/-- The persistent stores the poll loop reads and writes, plus the
loop-local deactivated-id working set. -/
structure EngineState where
  schedules : List BackupSchedule
  history : List HistoryRecord
  deactivated : List String
deriving Repr

/-- Update every schedule row matching an id, as the crud `UPDATE ... WHERE
id = :id` statements do. -/
def updById (l : List BackupSchedule) (sid : String)
    (f : BackupSchedule → BackupSchedule) : List BackupSchedule :=
  l.map (fun t => if t.id == sid then f t else t)

/-- Apply one store write (the crud layer's effect on the database);
`nowTs` is the epoch timestamp `create_backup_history` stamps on a new
history row. -/
def applyOp (nowTs : Int) (st : EngineState) (op : StoreOp) : EngineState :=
  match op with
  | StoreOp.createHistory sid status fp fs em =>
    { st with history := st.history ++ [⟨sid, status, fp, fs, em, nowTs⟩] }
  | StoreOp.updateSuccess sid t p sz =>
    { st with schedules := updById st.schedules sid (fun s =>
        { s with last_error := none, last_error_time := none,
                 last_success_time := some t, last_backup_path := some p,
                 last_backup_size := some sz }) }
  | StoreOp.updateError sid m t =>
    { st with schedules := updById st.schedules sid (fun s =>
        { s with last_error := some m, last_error_time := some t }) }
  | StoreOp.updateNext sid d =>
    { st with schedules := updById st.schedules sid (fun s =>
        { s with next_backup_date := d }) }
  | StoreOp.deactivate sid =>
    { st with schedules := updById st.schedules sid (fun s =>
        { s with active := false }) }

/-- Ascending order on `next_backup_date`, the `ORDER BY` of
`get_all_active_schedules`. -/
def nextBackupLe (a b : BackupSchedule) : Prop :=
  dtLe a.next_backup_date b.next_backup_date = true

instance : DecidableRel nextBackupLe := fun a b =>
  inferInstanceAs (Decidable (dtLe a.next_backup_date b.next_backup_date = true))

/-- Folding step of one tick: process one fetched schedule, apply its writes,
record them in the trace, and carry the deactivated-id set forward. -/
def tickFold (exec : BackupSchedule → Bool × String × Int) (now : PyDateTime)
    (acc : EngineState × List StoreOp) (s : BackupSchedule) :
    EngineState × List StoreOp :=
  let pr := processSchedule exec now acc.1.deactivated s
  let st2 := pr.1.foldl (applyOp (toEpochSec now)) acc.1
  ({ st2 with deactivated := pr.2 }, acc.2 ++ pr.1)

/-- One iteration of the poll loop (`tasks.py` lines 179-335): fetch the
active schedules ordered by `next_backup_date`, process each in turn, and
return the new state together with the trace of store writes issued. -/
def runTickTrace (exec : BackupSchedule → Bool × String × Int)
    (now : PyDateTime) (st : EngineState) : EngineState × List StoreOp :=
  let active := (st.schedules.filter (fun s => s.active)).insertionSort nextBackupLe
  active.foldl (tickFold exec now) (st, [])

/-- The parameters of one poll tick: the backup attempt's behaviour and the
tick's clock reading. -/
structure TickInput where
  exec : BackupSchedule → Bool × String × Int
  now : PyDateTime

/-- A run of consecutive poll ticks. -/
def runTicks (ticks : List TickInput) (st : EngineState) : EngineState :=
  ticks.foldl (fun acc t => (runTickTrace t.exec t.now acc).1) st

/-- The schedule rows with a given id (a singleton when ids are unique). -/
def schedFilter (st : EngineState) (sid : String) : List BackupSchedule :=
  st.schedules.filter (fun s => s.id == sid)

/-- The history rows of a given schedule. -/
def histFilter (st : EngineState) (sid : String) : List HistoryRecord :=
  st.history.filter (fun h => h.schedule_id == sid)

/-- Result of the manual-backup endpoint. -/
inductive ApiResult where
  | ok (file_path : String) (file_size : Int)
  | httpError (code : Nat) (detail : String)
deriving DecidableEq, Repr

/-- `api_manual_backup` (`views_api.py` lines 304-338): look the schedule up,
check ownership, run the same `execute_database_backup` the poll loop uses,
and translate its triple into the HTTP response. It issues no store write. -/
def api_manual_backup (env : ExecEnv) (st : EngineState)
    (schedule_id wallet_id : String) : ApiResult × EngineState :=
  match st.schedules.find? (fun s => s.id == schedule_id) with
  | none => (ApiResult.httpError 404 "Backup schedule not found", st)
  | some s =>
    if s.wallet != some wallet_id then
      (ApiResult.httpError 403 "Not authorized to execute this backup", st)
    else
      let r := execute_database_backup env s
      if r.1 then (ApiResult.ok r.2.1 r.2.2, st)
      else (ApiResult.httpError 500 "Backup execution failed", st)

/-- Is a store write a history insertion? -/
def isCreateHistory : StoreOp → Bool
  | StoreOp.createHistory _ _ _ _ _ => true
  | _ => false

/-- Is a store write a deactivation? -/
def isDeactivate : StoreOp → Bool
  | StoreOp.deactivate _ => true
  | _ => false

/-- Derived description of the store writes the due path of
`check_and_process_backups` issues for one schedule (proven below to be what
`processSchedule` emits when the schedule is due). -/
def opsDue (exec : BackupSchedule → Bool × String × Int) (now : PyDateTime)
    (s : BackupSchedule) : List StoreOp :=
  (if (exec s).1 then
    [StoreOp.createHistory s.id "success" (some (exec s).2.1)
       (some (exec s).2.2) none,
     StoreOp.updateSuccess s.id (toEpochSec now) (exec s).2.1 (exec s).2.2]
  else
    [StoreOp.createHistory s.id "error" none none
       (some "Backup execution failed"),
     StoreOp.updateError s.id "Backup execution failed" (toEpochSec now)])
  ++ [StoreOp.updateNext s.id (advanceNext s now).next_backup_date]

/-- Derived description of the history row the due path appends. -/
def dueRecord (exec : BackupSchedule → Bool × String × Int) (now : PyDateTime)
    (s : BackupSchedule) : HistoryRecord :=
  if (exec s).1 then
    ⟨s.id, "success", some (exec s).2.1, some (exec s).2.2, none, toEpochSec now⟩
  else
    ⟨s.id, "error", none, none, some "Backup execution failed", toEpochSec now⟩

/-- Derived description of the schedule row after the due path's writes. -/
def dueResult (exec : BackupSchedule → Bool × String × Int) (now : PyDateTime)
    (s : BackupSchedule) : BackupSchedule :=
  let s1 :=
    if (exec s).1 then
      { s with last_error := none, last_error_time := none,
               last_success_time := some (toEpochSec now),
               last_backup_path := some (exec s).2.1,
               last_backup_size := some (exec s).2.2 }
    else
      { s with last_error := some "Backup execution failed",
               last_error_time := some (toEpochSec now) }
  { s1 with next_backup_date := (advanceNext s now).next_backup_date }

/-- The per-frequency offset from the tick's current time, as the spec
enumerates it: hourly +1 hour, daily +1 day, weekly +7 days, monthly +1
calendar month; `none` for an unknown frequency. -/
def freqOffsetNext (ft : String) (now : PyDateTime) : Option PyDateTime :=
  if ft = "hourly" then some (addSeconds now 3600)
  else if ft = "daily" then some (addSeconds now 86400)
  else if ft = "weekly" then some (addSeconds now 604800)
  else if ft = "monthly" then some (addOneMonth now)
  else none

/-- A concrete due hourly schedule used in closed instances. -/
def schedHourly : BackupSchedule :=
  { id := "s1", name := "nightly", wallet := some "w1", backup_path := "/b"
    frequency_type := "hourly"
    start_datetime := ⟨2024, 1, 1, 0, 0, 0, 0⟩
    next_backup_date := ⟨2024, 1, 10, 0, 0, 0, 0⟩
    retention_count := 7, active := true, end_datetime := none
    compress := true, created_at := none, last_error := none
    last_error_time := none, last_success_time := none
    last_backup_path := none, last_backup_size := none }

/-- A concrete clock reading at which `schedHourly` is due. -/
def tickNow : PyDateTime := ⟨2024, 1, 10, 0, 5, 0, 0⟩

/-- A backup attempt that always fails. -/
def execFail : BackupSchedule → Bool × String × Int := fun _ => (false, "", 0)

/-- A backup attempt that always succeeds with a fixed artifact. -/
def execOk : BackupSchedule → Bool × String × Int :=
  fun _ => (true, "/b/lnbits_backup_20240110_000500.sql.gz", 2048)

example :
    (runTickTrace execFail tickNow
      { schedules := [schedHourly], history := [], deactivated := [] }).2
    = [StoreOp.createHistory "s1" "error" none none
         (some "Backup execution failed"),
       StoreOp.updateError "s1" "Backup execution failed" 1704845100,
       StoreOp.updateNext "s1" ⟨2024, 1, 10, 1, 5, 0, 0⟩] := by decide

/-- The (year, month, day, hour, minute, second) tuple a timestamp renders:
the second-granularity identity of a clock reading. -/
def secondKey (dt : PyDateTime) : Int × Int × Int × Int × Int × Int :=
  (dt.year, dt.month, dt.day, dt.hour, dt.minute, dt.second)

/-- Calendar-field ranges every value produced by `datetime.now` satisfies
(four-digit year). -/
def fieldsInRange (dt : PyDateTime) : Prop :=
  1000 ≤ dt.year ∧ dt.year ≤ 9999 ∧ 1 ≤ dt.month ∧ dt.month ≤ 12
    ∧ 1 ≤ dt.day ∧ dt.day ≤ 31 ∧ 0 ≤ dt.hour ∧ dt.hour ≤ 23
    ∧ 0 ≤ dt.minute ∧ dt.minute ≤ 59 ∧ 0 ≤ dt.second ∧ dt.second ≤ 59

instance (dt : PyDateTime) : Decidable (fieldsInRange dt) :=
  inferInstanceAs (Decidable (_ ∧ _))

/-- Start index of the Python slice `l[k:]` over a list of length `len`. -/
def sliceStart (k : Int) (len : Nat) : Nat :=
  if 0 ≤ k then k.toNat else ((len : Int) + k).toNat

/-- A due schedule whose frequency string is not one of the four known
values. -/
def schedYearly : BackupSchedule :=
  { schedHourly with id := "s2", frequency_type := "yearly" }

/-- An active schedule whose `end_datetime` has passed but whose
`start_datetime` is still in the future. -/
def schedEndBeforeStart : BackupSchedule :=
  { schedHourly with
    id := "s3"
    start_datetime := ⟨2030, 1, 1, 0, 0, 0, 0⟩
    end_datetime := some ⟨2020, 1, 1, 0, 0, 0, 0⟩ }

/-- A started, active schedule whose `end_datetime` has passed. -/
def schedExpired : BackupSchedule :=
  { schedHourly with
    id := "s4"
    end_datetime := some ⟨2024, 1, 9, 0, 0, 0, 0⟩ }

/-- A fully healthy executor environment against a PostgreSQL database. -/
def envSample : ExecEnv :=
  { db_url := "postgresql://u:p@h:5432/db", now := tickNow
    mkdir_ok := true, pg_dump_found := true, pg_dump_ok := true
    pg_dump_stderr := "", db_file_exists := true, vacuum_ok := true
    copy_ok := true, copy_error := "copy failed", compress_ok := true
    compress_error := "gzip failed", stat_ok := true, stat_error := "stat failed"
    file_size := 2048 }

/-- A state holding a single schedule and no history. -/
def oneState (s : BackupSchedule) : EngineState :=
  { schedules := [s], history := [], deactivated := [] }

/-! ## Theorems -/

theorem strData_append (p q : String) : (p ++ q).data = p.data ++ q.data := by
  cases p; cases q; rfl

theorem digitChar_inj_lt10 :
    ∀ a < 10, ∀ b < 10, Nat.digitChar a = Nat.digitChar b → a = b := by decide

theorem pad2_inj {m n : Int} (hm0 : 0 ≤ m) (hm : m < 100) (hn0 : 0 ≤ n)
    (hn : n < 100) (h : pad2 m = pad2 n) : m = n := by
  simp only [pad2, List.cons.injEq, and_true] at h
  obtain ⟨h1, h2⟩ := h
  have e1 := digitChar_inj_lt10 _ (Nat.mod_lt _ (by norm_num)) _
    (Nat.mod_lt _ (by norm_num)) h1
  have e2 := digitChar_inj_lt10 _ (Nat.mod_lt _ (by norm_num)) _
    (Nat.mod_lt _ (by norm_num)) h2
  omega

theorem pad4_inj {m n : Int} (hm0 : 0 ≤ m) (hm : m < 10000) (hn0 : 0 ≤ n)
    (hn : n < 10000) (h : pad4 m = pad4 n) : m = n := by
  simp only [pad4, List.cons.injEq, and_true] at h
  obtain ⟨h1, h2, h3, h4⟩ := h
  have e1 := digitChar_inj_lt10 _ (Nat.mod_lt _ (by norm_num)) _
    (Nat.mod_lt _ (by norm_num)) h1
  have e2 := digitChar_inj_lt10 _ (Nat.mod_lt _ (by norm_num)) _
    (Nat.mod_lt _ (by norm_num)) h2
  have e3 := digitChar_inj_lt10 _ (Nat.mod_lt _ (by norm_num)) _
    (Nat.mod_lt _ (by norm_num)) h3
  have e4 := digitChar_inj_lt10 _ (Nat.mod_lt _ (by norm_num)) _
    (Nat.mod_lt _ (by norm_num)) h4
  omega

/-- C7 counterexample: two backup runs at distinct instants inside the same
UTC second (here 500000 microseconds apart) produce the same artifact
filename, so the second-granularity timestamp does not guarantee distinct
filenames for concurrent runs. -/
theorem c7_same_second_collision :
    (⟨2024, 1, 10, 0, 5, 0, 0⟩ : PyDateTime) ≠ ⟨2024, 1, 10, 0, 5, 0, 500000⟩
    ∧ backupBaseFilename ⟨2024, 1, 10, 0, 5, 0, 0⟩
      = backupBaseFilename ⟨2024, 1, 10, 0, 5, 0, 500000⟩ := by
  constructor
  · decide
  · decide

/-- C7 (amended): the timestamped filename separates runs only at second
granularity: two runs whose clock readings render different
(year, month, day, hour, minute, second) tuples get distinct artifact
filenames; runs within the same second share one. -/
theorem c7_filename_injective_per_second (dt1 dt2 : PyDateTime)
    (h1 : fieldsInRange dt1) (h2 : fieldsInRange dt2)
    (hne : secondKey dt1 ≠ secondKey dt2) :
    backupBaseFilename dt1 ≠ backupBaseFilename dt2 := by
  intro h
  apply hne
  obtain ⟨ha1, ha2, ha3, ha4, ha5, ha6, ha7, ha8, ha9, ha10, ha11, ha12⟩ := h1
  obtain ⟨hb1, hb2, hb3, hb4, hb5, hb6, hb7, hb8, hb9, hb10, hb11, hb12⟩ := h2
  have hd : (backupBaseFilename dt1).data = (backupBaseFilename dt2).data := by
    rw [h]
  rw [backupBaseFilename, backupBaseFilename, strData_append, strData_append]
    at hd
  have hts : (formatTimestamp dt1).data = (formatTimestamp dt2).data :=
    List.append_cancel_left hd
  have hL : pad4 dt1.year ++ pad2 dt1.month ++ pad2 dt1.day ++ ['_']
      ++ pad2 dt1.hour ++ pad2 dt1.minute ++ pad2 dt1.second
      = pad4 dt2.year ++ pad2 dt2.month ++ pad2 dt2.day ++ ['_']
      ++ pad2 dt2.hour ++ pad2 dt2.minute ++ pad2 dt2.second := hts
  rw [List.append_assoc, List.append_assoc, List.append_assoc,
    List.append_assoc, List.append_assoc, List.append_assoc,
    List.append_assoc, List.append_assoc, List.append_assoc,
    List.append_assoc] at hL
  obtain ⟨hy, hL⟩ := List.append_inj hL rfl
  obtain ⟨hmo, hL⟩ := List.append_inj hL rfl
  obtain ⟨hda, hL⟩ := List.append_inj hL rfl
  obtain ⟨-, hL⟩ := List.append_inj hL rfl
  obtain ⟨hho, hL⟩ := List.append_inj hL rfl
  obtain ⟨hmi, hse⟩ := List.append_inj hL rfl
  have ey := pad4_inj (by omega) (by omega) (by omega) (by omega) hy
  have emo := pad2_inj (by omega) (by omega) (by omega) (by omega) hmo
  have eda := pad2_inj (by omega) (by omega) (by omega) (by omega) hda
  have eho := pad2_inj (by omega) (by omega) (by omega) (by omega) hho
  have emi := pad2_inj (by omega) (by omega) (by omega) (by omega) hmi
  have ese := pad2_inj (by omega) (by omega) (by omega) (by omega) hse
  simp only [secondKey, Prod.mk.injEq]
  exact ⟨ey, emo, eda, eho, emi, ese⟩

/-- C7 witness: two concrete runs one second apart get distinct filenames. -/
theorem c7_filename_injective_per_second_witness :
    fieldsInRange ⟨2024, 1, 10, 0, 5, 0, 0⟩
    ∧ fieldsInRange ⟨2024, 1, 10, 0, 5, 1, 0⟩
    ∧ secondKey ⟨2024, 1, 10, 0, 5, 0, 0⟩ ≠ secondKey ⟨2024, 1, 10, 0, 5, 1, 0⟩
    ∧ backupBaseFilename ⟨2024, 1, 10, 0, 5, 0, 0⟩
      ≠ backupBaseFilename ⟨2024, 1, 10, 0, 5, 1, 0⟩ :=
  ⟨by decide, by decide, by decide,
    c7_filename_injective_per_second _ _ (by decide) (by decide) (by decide)⟩

/-- C2: for every executor environment (covering a missing dump tool, a
failing dump, a missing source database file, a compression error, a stat
error, and any mix of them) and every schedule, `execute_database_backup`
either succeeds or returns the structured failure triple `(False, "", 0)`;
it never propagates an exception. -/
theorem c2_executor_never_raises (env : ExecEnv) (s : BackupSchedule) :
    (execute_database_backup env s).1 = true
    ∨ execute_database_backup env s = (false, "", 0) := by
  unfold execute_database_backup
  cases hx : execInner env s with
  | ok r => exact Or.inl rfl
  | error e => exact Or.inr rfl

/-- C6: the manual-backup endpoint runs `execute_database_backup` (the same
executor the poll loop calls) and leaves the schedule store — in particular
every schedule's `next_backup_date` — unchanged; its response is determined
by the executor's triple. -/
theorem c6_manual_backup_no_store_write (env : ExecEnv) (st : EngineState)
    (sid wid : String) (s : BackupSchedule)
    (hfind : st.schedules.find? (fun t => t.id == sid) = some s)
    (hw : s.wallet = some wid) :
    (api_manual_backup env st sid wid).2 = st
    ∧ (api_manual_backup env st sid wid).1 =
        (if (execute_database_backup env s).1 then
          ApiResult.ok (execute_database_backup env s).2.1
            (execute_database_backup env s).2.2
        else ApiResult.httpError 500 "Backup execution failed") := by
  simp only [api_manual_backup, hfind, hw]
  by_cases hb : (execute_database_backup env s).1 <;> simp [hb]

/-- C6 witness: a concrete manual backup against a one-schedule store. -/
theorem c6_manual_backup_no_store_write_witness :
    (oneState schedHourly).schedules.find? (fun t => t.id == "s1")
      = some schedHourly
    ∧ schedHourly.wallet = some "w1"
    ∧ ((api_manual_backup envSample (oneState schedHourly) "s1" "w1").2
        = oneState schedHourly
      ∧ (api_manual_backup envSample (oneState schedHourly) "s1" "w1").1 =
          (if (execute_database_backup envSample schedHourly).1 then
            ApiResult.ok (execute_database_backup envSample schedHourly).2.1
              (execute_database_backup envSample schedHourly).2.2
          else ApiResult.httpError 500 "Backup execution failed")) :=
  ⟨rfl, rfl,
    c6_manual_backup_no_store_write envSample (oneState schedHourly) "s1" "w1"
      schedHourly rfl rfl⟩

theorem count_filter_bool (a : BFile) (l : List BFile) (p : BFile → Bool) :
    List.count a (l.filter p) = if p a then List.count a l else 0 := by
  by_cases hp : p a
  · rw [if_pos hp, List.count_filter hp]
  · rw [if_neg hp]
    exact List.count_eq_zero.mpr (fun hmem => hp (List.mem_filter.mp hmem).2)

theorem globBackups_perm (files : List BFile)
    (h : ∀ f ∈ files, backupExts.countP (fun e => matchesExt e f) = 1) :
    (globBackups files).Perm files := by
  rw [List.perm_iff_count]
  intro a
  have hg : globBackups files
      = files.filter (matchesExt ".sql") ++ (files.filter (matchesExt ".sql.gz")
        ++ (files.filter (matchesExt ".sqlite3")
        ++ (files.filter (matchesExt ".sqlite3.gz") ++ []))) := rfl
  rw [hg]
  simp only [List.count_append, List.count_nil]
  rw [count_filter_bool, count_filter_bool, count_filter_bool, count_filter_bool]
  by_cases hmem : a ∈ files
  · have h1 := h a hmem
    simp only [backupExts, List.countP_cons, List.countP_nil] at h1
    split_ifs at h1 ⊢ <;> omega
  · have h0 : List.count a files = 0 := List.count_eq_zero.mpr hmem
    split_ifs <;> omega

theorem sortNewestFirst_perm (l : List BFile) : (sortNewestFirst l).Perm l :=
  List.perm_insertionSort _ _

theorem sortNewestFirst_sorted (l : List BFile) :
    List.Sorted mtimeGe (sortNewestFirst l) :=
  List.sorted_insertionSort _ _

theorem takeWhile_of_all {p : BFile → Bool} (l : List BFile)
    (h : ∀ f ∈ l, p f = true) : l.takeWhile p = l := by
  induction l with
  | nil => rfl
  | cons a t ih =>
    rw [List.takeWhile_cons, if_pos (h a (List.mem_cons_self a t))]
    rw [ih (fun f hf => h f (List.mem_cons_of_mem a hf))]

theorem cleanup_noFail_perm_take (k : Int) (files : List BFile)
    (hnd : files.Nodup)
    (hmatch : ∀ f ∈ files, backupExts.countP (fun e => matchesExt e f) = 1)
    (hbr : k < (files.length : Int)) :
    (cleanup_old_backups k files (fun _ => false)).Perm
      ((sortNewestFirst (globBackups files)).take
        (sliceStart k files.length)) := by
  have hperm : (sortNewestFirst (globBackups files)).Perm files :=
    (List.perm_insertionSort _ _).trans (globBackups_perm files hmatch)
  have hlen : (sortNewestFirst (globBackups files)).length = files.length :=
    hperm.length_eq
  have hndS : (sortNewestFirst (globBackups files)).Nodup :=
    hperm.symm.nodup hnd
  have hdrop : pySliceFrom k (sortNewestFirst (globBackups files))
      = (sortNewestFirst (globBackups files)).drop (sliceStart k files.length) := by
    simp only [pySliceFrom, sliceStart, hlen]
    split_ifs <;> rfl
  have hcl : cleanup_old_backups k files (fun _ => false)
      = files.filter (fun f =>
          !(((sortNewestFirst (globBackups files)).drop
              (sliceStart k files.length)).contains f)) := by
    simp only [cleanup_old_backups]
    rw [if_pos (by rw [hlen]; exact hbr)]
    have ht : List.takeWhile (fun f : BFile => !false)
        (pySliceFrom k (sortNewestFirst (globBackups files)))
        = pySliceFrom k (sortNewestFirst (globBackups files)) :=
      takeWhile_of_all _ (fun f _ => rfl)
    rw [ht, hdrop]
  rw [hcl]
  refine (List.perm_ext_iff_of_nodup (hnd.filter _)
    ((List.take_sublist _ _).nodup hndS)).mpr ?_
  intro a
  have hsplit := List.take_append_drop (sliceStart k files.length)
    (sortNewestFirst (globBackups files))
  have hdisj : (List.take (sliceStart k files.length)
        (sortNewestFirst (globBackups files))).Disjoint
      (List.drop (sliceStart k files.length)
        (sortNewestFirst (globBackups files))) := by
    have := hndS
    rw [← hsplit, List.nodup_append] at this
    exact this.2.2
  constructor
  · intro ha
    obtain ⟨haf, hac⟩ := List.mem_filter.mp ha
    have hamem : a ∈ sortNewestFirst (globBackups files) := hperm.mem_iff.mpr haf
    have : a ∉ List.drop (sliceStart k files.length)
        (sortNewestFirst (globBackups files)) := by
      intro hcontra
      simp [hcontra] at hac
    rw [← hsplit] at hamem
    rcases List.mem_append.mp hamem with h1 | h2
    · exact h1
    · exact absurd h2 this
  · intro ha
    have hamem : a ∈ sortNewestFirst (globBackups files) := by
      rw [← hsplit]
      exact List.mem_append.mpr (Or.inl ha)
    refine List.mem_filter.mpr ⟨hperm.mem_iff.mp hamem, ?_⟩
    have : a ∉ List.drop (sliceStart k files.length)
        (sortNewestFirst (globBackups files)) := fun hc => hdisj ha hc
    simp [this]

/-- C3: with `0 < retention_count = k < N` artifacts (all matching the
backup naming pattern, with distinct modification times) and no delete
failures, one retention run leaves exactly `k` artifacts, and every survivor
is strictly newer than every removed artifact — i.e. the `k` most recently
modified remain. -/
theorem c3_retention_keeps_k_newest (files : List BFile) (k : Int)
    (hnd : files.Nodup)
    (hmt : files.Pairwise (fun a b => a.mtime ≠ b.mtime))
    (hmatch : ∀ f ∈ files, backupExts.countP (fun e => matchesExt e f) = 1)
    (hk0 : 0 < k) (hkN : k < (files.length : Int)) :
    (cleanup_old_backups k files (fun _ => false)).length = k.toNat
    ∧ (∀ f ∈ cleanup_old_backups k files (fun _ => false), f ∈ files)
    ∧ (∀ f ∈ cleanup_old_backups k files (fun _ => false),
        ∀ g ∈ files, g ∉ cleanup_old_backups k files (fun _ => false) →
          g.mtime < f.mtime) := by
  have hperm : (sortNewestFirst (globBackups files)).Perm files :=
    (List.perm_insertionSort _ _).trans (globBackups_perm files hmatch)
  have hlen : (sortNewestFirst (globBackups files)).length = files.length :=
    hperm.length_eq
  have hptake := cleanup_noFail_perm_take k files hnd hmatch hkN
  have hstart : sliceStart k files.length = k.toNat := by
    simp only [sliceStart, if_pos (le_of_lt hk0)]
  have hsplit := List.take_append_drop (sliceStart k files.length)
    (sortNewestFirst (globBackups files))
  refine ⟨?_, ?_, ?_⟩
  · rw [hptake.length_eq, List.length_take, hstart, hlen]
    omega
  · intro f hf
    have hfT := hptake.mem_iff.mp hf
    have hfS : f ∈ sortNewestFirst (globBackups files) := by
      rw [← hsplit]
      exact List.mem_append.mpr (Or.inl hfT)
    exact hperm.mem_iff.mp hfS
  · intro f hf g hgf hgR
    have hfT : f ∈ List.take (sliceStart k files.length)
        (sortNewestFirst (globBackups files)) := hptake.mem_iff.mp hf
    have hgS : g ∈ sortNewestFirst (globBackups files) := hperm.mem_iff.mpr hgf
    have hgD : g ∈ List.drop (sliceStart k files.length)
        (sortNewestFirst (globBackups files)) := by
      rw [← hsplit] at hgS
      rcases List.mem_append.mp hgS with h1 | h2
      · exact absurd (hptake.mem_iff.mpr h1) hgR
      · exact h2
    have hsorted : List.Pairwise mtimeGe
        (List.take (sliceStart k files.length) (sortNewestFirst (globBackups files))
          ++ List.drop (sliceStart k files.length)
            (sortNewestFirst (globBackups files))) := by
      rw [hsplit]
      exact sortNewestFirst_sorted (globBackups files)
    have hne : List.Pairwise (fun a b : BFile => a.mtime ≠ b.mtime)
        (List.take (sliceStart k files.length) (sortNewestFirst (globBackups files))
          ++ List.drop (sliceStart k files.length)
            (sortNewestFirst (globBackups files))) := by
      rw [hsplit]
      exact ((hperm.pairwise_iff (fun h => h.symm)).mpr hmt)
    have hle : mtimeGe f g :=
      (List.pairwise_append.mp hsorted).2.2 f hfT g hgD
    have hneq : f.mtime ≠ g.mtime :=
      (List.pairwise_append.mp hne).2.2 f hfT g hgD
    exact lt_of_le_of_ne hle (fun h => hneq h.symm)

/-- C3 witness: retention 3 over four concrete artifacts keeps the three
newest. -/
theorem c3_retention_keeps_k_newest_witness :
    (0:Int) < 3
    ∧ (3:Int) < (([⟨"lnbits_backup_a.sql", 1⟩, ⟨"lnbits_backup_b.sql", 2⟩,
        ⟨"lnbits_backup_c.sql", 3⟩, ⟨"lnbits_backup_d.sql", 4⟩] :
          List BFile).length : Int)
    ∧ ((cleanup_old_backups 3
          [⟨"lnbits_backup_a.sql", 1⟩, ⟨"lnbits_backup_b.sql", 2⟩,
           ⟨"lnbits_backup_c.sql", 3⟩, ⟨"lnbits_backup_d.sql", 4⟩]
          (fun _ => false)).length = (3:Int).toNat
      ∧ (∀ f ∈ cleanup_old_backups 3
            [⟨"lnbits_backup_a.sql", 1⟩, ⟨"lnbits_backup_b.sql", 2⟩,
             ⟨"lnbits_backup_c.sql", 3⟩, ⟨"lnbits_backup_d.sql", 4⟩]
            (fun _ => false),
          f ∈ [⟨"lnbits_backup_a.sql", 1⟩, ⟨"lnbits_backup_b.sql", 2⟩,
               ⟨"lnbits_backup_c.sql", 3⟩, ⟨"lnbits_backup_d.sql", 4⟩])
      ∧ (∀ f ∈ cleanup_old_backups 3
            [⟨"lnbits_backup_a.sql", 1⟩, ⟨"lnbits_backup_b.sql", 2⟩,
             ⟨"lnbits_backup_c.sql", 3⟩, ⟨"lnbits_backup_d.sql", 4⟩]
            (fun _ => false),
          ∀ g ∈ [⟨"lnbits_backup_a.sql", 1⟩, ⟨"lnbits_backup_b.sql", 2⟩,
                 ⟨"lnbits_backup_c.sql", 3⟩, ⟨"lnbits_backup_d.sql", 4⟩],
            g ∉ cleanup_old_backups 3
              [⟨"lnbits_backup_a.sql", 1⟩, ⟨"lnbits_backup_b.sql", 2⟩,
               ⟨"lnbits_backup_c.sql", 3⟩, ⟨"lnbits_backup_d.sql", 4⟩]
              (fun _ => false) → g.mtime < f.mtime)) :=
  ⟨by decide, by decide,
    c3_retention_keeps_k_newest _ 3 (by decide) (by decide) (by decide)
      (by decide) (by decide)⟩

/-- C8 counterexample: `retention_count = -1` over three matching artifacts
deletes only the single oldest one (Python's negative slice `l[-1:]` selects
the last element of the newest-first ordering), keeping two — not "keep
none" as the claim states. -/
theorem c8_negative_retention_keeps_files :
    cleanup_old_backups (-1)
      [⟨"lnbits_backup_a.sql", 1⟩, ⟨"lnbits_backup_b.sql", 2⟩,
       ⟨"lnbits_backup_c.sql", 3⟩] (fun _ => false)
      = [⟨"lnbits_backup_b.sql", 2⟩, ⟨"lnbits_backup_c.sql", 3⟩]
    ∧ (cleanup_old_backups (-1)
        [⟨"lnbits_backup_a.sql", 1⟩, ⟨"lnbits_backup_b.sql", 2⟩,
         ⟨"lnbits_backup_c.sql", 3⟩] (fun _ => false)).length ≠ 0 := by
  exact ⟨by decide, by decide⟩

/-- C8 (amended): `retention_count = 0` deletes every matching artifact, but
a negative `retention_count = -j` deletes only the `min j N` oldest
artifacts (Python negative-slice semantics), keeping
`N - min j N` — "keep none" holds only for `0` or `j ≥ N`. -/
theorem c8_nonpositive_retention (files : List BFile) (k : Int)
    (hnd : files.Nodup)
    (hmatch : ∀ f ∈ files, backupExts.countP (fun e => matchesExt e f) = 1)
    (hk : k ≤ 0) :
    (cleanup_old_backups k files (fun _ => false)).length
      = if k = 0 then 0 else files.length - min files.length (-k).toNat := by
  have hlen : (sortNewestFirst (globBackups files)).length = files.length :=
    ((List.perm_insertionSort _ _).trans (globBackups_perm files hmatch)).length_eq
  rcases lt_or_eq_of_le hk with hlt | heq
  · rw [if_neg (by omega)]
    have hbr : k < (files.length : Int) := by
      have : (0:Int) ≤ files.length := Int.ofNat_nonneg _
      omega
    rw [(cleanup_noFail_perm_take k files hnd hmatch hbr).length_eq,
      List.length_take, hlen]
    simp only [sliceStart, if_neg (not_le.mpr hlt)]
    omega
  · subst heq
    rw [if_pos rfl]
    by_cases hemp : files.length = 0
    · have : files = [] := List.length_eq_zero.mp hemp
      subst this
      rfl
    · have hbr : (0:Int) < (files.length : Int) := by
        omega
      rw [(cleanup_noFail_perm_take 0 files hnd hmatch hbr).length_eq]
      simp [sliceStart]

/-- C8 witness: the amended statement at `retention_count = -1` over three
artifacts: two remain. -/
theorem c8_nonpositive_retention_witness :
    ((-1:Int) ≤ 0)
    ∧ (cleanup_old_backups (-1)
        [⟨"lnbits_backup_a.sql", 1⟩, ⟨"lnbits_backup_b.sql", 2⟩,
         ⟨"lnbits_backup_c.sql", 3⟩] (fun _ => false)).length
      = if (-1:Int) = 0 then 0
        else ([⟨"lnbits_backup_a.sql", 1⟩, ⟨"lnbits_backup_b.sql", 2⟩,
               ⟨"lnbits_backup_c.sql", 3⟩] : List BFile).length
          - min ([⟨"lnbits_backup_a.sql", 1⟩, ⟨"lnbits_backup_b.sql", 2⟩,
                  ⟨"lnbits_backup_c.sql", 3⟩] : List BFile).length
              (-(-1:Int)).toNat :=
  ⟨by decide,
    c8_nonpositive_retention _ (-1) (by decide) (by decide) (by decide)⟩

/-- C4 counterexample: retention 1 over four artifacts with distinct mtimes;
deleting the first excess artifact (mtime 3) fails. The remaining excess
artifacts (mtimes 2 and 1) would delete fine — their `unlink` does not
fail — yet nothing at all is deleted, because the single `except` wraps the
whole deletion loop. With no failure, the same cleanup deletes all three. -/
theorem c4_delete_failure_aborts :
    cleanup_old_backups 1
      [⟨"lnbits_backup_a.sql", 1⟩, ⟨"lnbits_backup_b.sql", 2⟩,
       ⟨"lnbits_backup_c.sql", 3⟩, ⟨"lnbits_backup_d.sql", 4⟩]
      (fun f => f.mtime == 3)
      = [⟨"lnbits_backup_a.sql", 1⟩, ⟨"lnbits_backup_b.sql", 2⟩,
         ⟨"lnbits_backup_c.sql", 3⟩, ⟨"lnbits_backup_d.sql", 4⟩]
    ∧ (fun f : BFile => f.mtime == 3) ⟨"lnbits_backup_b.sql", 2⟩ = false
    ∧ cleanup_old_backups 1
        [⟨"lnbits_backup_a.sql", 1⟩, ⟨"lnbits_backup_b.sql", 2⟩,
         ⟨"lnbits_backup_c.sql", 3⟩, ⟨"lnbits_backup_d.sql", 4⟩]
        (fun _ => false)
      = [⟨"lnbits_backup_d.sql", 4⟩] := by
  exact ⟨by decide, by decide, by decide⟩

/-- C4 (amended): an `unlink` failure during retention cleanup never
propagates to the caller (the enforcer always returns a directory state),
but it aborts the remaining deletions of that run: every artifact at or
after the first failing one in the newest-first deletion list survives. -/
theorem c4_failure_keeps_rest_of_deletion_list (k : Int) (files : List BFile)
    (fails : BFile → Bool)
    (hnd : files.Nodup)
    (hmatch : ∀ f ∈ files, backupExts.countP (fun e => matchesExt e f) = 1)
    (g : BFile)
    (hg : g ∈ (pySliceFrom k (sortNewestFirst (globBackups files))).dropWhile
        (fun f => !fails f))
    (hgf : g ∈ files) :
    g ∈ cleanup_old_backups k files fails := by
  by_cases hbr : k < ((sortNewestFirst (globBackups files)).length : Int)
  · simp only [cleanup_old_backups]
    rw [if_pos hbr]
    refine List.mem_filter.mpr ⟨hgf, ?_⟩
    have hndS : (sortNewestFirst (globBackups files)).Nodup :=
      ((List.perm_insertionSort _ _).trans
        (globBackups_perm files hmatch)).symm.nodup hnd
    have hndD : (pySliceFrom k (sortNewestFirst (globBackups files))).Nodup := by
      unfold pySliceFrom
      split_ifs <;> exact (List.drop_sublist _ _).nodup hndS
    have hsplit := List.takeWhile_append_dropWhile (fun f => !fails f)
      (pySliceFrom k (sortNewestFirst (globBackups files)))
    rw [← hsplit, List.nodup_append] at hndD
    have hgnot : g ∉ List.takeWhile (fun f => !fails f)
        (pySliceFrom k (sortNewestFirst (globBackups files))) :=
      fun hc => hndD.2.2 hc hg
    simp [hgnot]
  · simp only [cleanup_old_backups]
    rw [if_neg hbr]
    exact hgf

/-- C4 witness: the artifact of mtime 2 sits after the failing artifact of
mtime 3 in the deletion list and survives the concrete cleanup. -/
theorem c4_failure_keeps_rest_of_deletion_list_witness :
    (⟨"lnbits_backup_b.sql", 2⟩ : BFile)
      ∈ (pySliceFrom 1 (sortNewestFirst (globBackups
          [⟨"lnbits_backup_a.sql", 1⟩, ⟨"lnbits_backup_b.sql", 2⟩,
           ⟨"lnbits_backup_c.sql", 3⟩, ⟨"lnbits_backup_d.sql", 4⟩]))).dropWhile
            (fun f => !(f.mtime == 3))
    ∧ (⟨"lnbits_backup_b.sql", 2⟩ : BFile)
        ∈ [⟨"lnbits_backup_a.sql", 1⟩, ⟨"lnbits_backup_b.sql", 2⟩,
           ⟨"lnbits_backup_c.sql", 3⟩, ⟨"lnbits_backup_d.sql", 4⟩]
    ∧ (⟨"lnbits_backup_b.sql", 2⟩ : BFile)
        ∈ cleanup_old_backups 1
            [⟨"lnbits_backup_a.sql", 1⟩, ⟨"lnbits_backup_b.sql", 2⟩,
             ⟨"lnbits_backup_c.sql", 3⟩, ⟨"lnbits_backup_d.sql", 4⟩]
            (fun f => f.mtime == 3) :=
  ⟨by decide, by decide,
    c4_failure_keeps_rest_of_deletion_list 1 _ (fun f => f.mtime == 3)
      (by decide) (by decide) _ (by decide) (by decide)⟩

theorem updById_cons (a : BackupSchedule) (t : List BackupSchedule)
    (sid : String) (f : BackupSchedule → BackupSchedule) :
    updById (a :: t) sid f
      = (if a.id == sid then f a else a) :: updById t sid f := rfl

theorem updById_filter_ne (l : List BackupSchedule) (osid sid : String)
    (f : BackupSchedule → BackupSchedule) (hf : ∀ t, (f t).id = t.id)
    (hne : osid ≠ sid) :
    (updById l osid f).filter (fun t => t.id == sid)
      = l.filter (fun t => t.id == sid) := by
  induction l with
  | nil => rfl
  | cons a t ih =>
    rw [updById_cons]
    by_cases ha : (a.id == osid) = true
    · have haid : a.id = osid := beq_iff_eq.mp ha
      have h1 : ((f a).id == sid) = false := by
        rw [hf a, haid]
        exact beq_eq_false_iff_ne.mpr hne
      have h2 : (a.id == sid) = false := by
        rw [haid]
        exact beq_eq_false_iff_ne.mpr hne
      simp only [ha, if_true, List.filter_cons, h1, h2, Bool.false_eq_true,
        if_false]
      exact ih
    · replace ha : (a.id == osid) = false := by simpa using ha
      simp only [ha, Bool.false_eq_true, if_false, List.filter_cons]
      by_cases h2 : (a.id == sid) = true
      · simp only [h2, if_true]
        exact congrArg _ ih
      · replace h2 : (a.id == sid) = false := by simpa using h2
        simp only [h2, Bool.false_eq_true, if_false]
        exact ih

theorem updById_filter_eq (l : List BackupSchedule) (sid : String)
    (f : BackupSchedule → BackupSchedule) (hf : ∀ t, (f t).id = t.id) :
    (updById l sid f).filter (fun t => t.id == sid)
      = (l.filter (fun t => t.id == sid)).map f := by
  induction l with
  | nil => rfl
  | cons a t ih =>
    rw [updById_cons]
    by_cases ha : (a.id == sid) = true
    · have h1 : ((f a).id == sid) = true := by rw [hf a]; exact ha
      simp only [ha, if_true, List.filter_cons, h1, List.map_cons]
      exact congrArg _ ih
    · replace ha : (a.id == sid) = false := by simpa using ha
      have h1 : ((f a).id == sid) = false := by rw [hf a]; exact ha
      simp only [ha, Bool.false_eq_true, if_false, List.filter_cons, h1]
      exact ih

theorem updById_map_id (l : List BackupSchedule) (sid : String)
    (f : BackupSchedule → BackupSchedule) (hf : ∀ t, (f t).id = t.id) :
    (updById l sid f).map (fun t => t.id) = l.map (fun t => t.id) := by
  induction l with
  | nil => rfl
  | cons a t ih =>
    rw [updById_cons, List.map_cons, List.map_cons, ih]
    by_cases ha : (a.id == sid) = true
    · simp only [ha, if_true, hf a]
    · replace ha : (a.id == sid) = false := by simpa using ha
      simp only [ha, Bool.false_eq_true, if_false]

theorem applyOp_deactivated (ts : Int) (st : EngineState) (op : StoreOp) :
    (applyOp ts st op).deactivated = st.deactivated := by
  cases op <;> rfl

theorem applyOp_map_id (ts : Int) (st : EngineState) (op : StoreOp) :
    (applyOp ts st op).schedules.map (fun t => t.id)
      = st.schedules.map (fun t => t.id) := by
  cases op with
  | createHistory sid status fp fs em => rfl
  | updateSuccess sid t p sz => exact updById_map_id _ _ _ (fun u => rfl)
  | updateError sid m t => exact updById_map_id _ _ _ (fun u => rfl)
  | updateNext sid d => exact updById_map_id _ _ _ (fun u => rfl)
  | deactivate sid => exact updById_map_id _ _ _ (fun u => rfl)

theorem applyOp_schedFilter_ne (ts : Int) (st : EngineState) (op : StoreOp)
    (sid : String) (h : opTarget op ≠ sid) :
    schedFilter (applyOp ts st op) sid = schedFilter st sid := by
  cases op with
  | createHistory osid status fp fs em => rfl
  | updateSuccess osid t p sz => exact updById_filter_ne _ _ _ _ (fun u => rfl) h
  | updateError osid m t => exact updById_filter_ne _ _ _ _ (fun u => rfl) h
  | updateNext osid d => exact updById_filter_ne _ _ _ _ (fun u => rfl) h
  | deactivate osid => exact updById_filter_ne _ _ _ _ (fun u => rfl) h

theorem applyOp_histFilter_ne (ts : Int) (st : EngineState) (op : StoreOp)
    (sid : String) (h : opTarget op ≠ sid) :
    histFilter (applyOp ts st op) sid = histFilter st sid := by
  cases op with
  | createHistory osid status fp fs em =>
    show (st.history ++ [(⟨osid, status, fp, fs, em, ts⟩ : HistoryRecord)]).filter
        (fun r => r.schedule_id == sid)
      = st.history.filter (fun r => r.schedule_id == sid)
    rw [List.filter_append]
    have hz : List.filter (fun r : HistoryRecord => r.schedule_id == sid)
        [⟨osid, status, fp, fs, em, ts⟩] = [] := by
      have hne : osid ≠ sid := h
      simp [beq_eq_false_iff_ne.mpr hne]
    rw [hz, List.append_nil]
  | updateSuccess osid t p sz => rfl
  | updateError osid m t => rfl
  | updateNext osid d => rfl
  | deactivate osid => rfl

theorem opsFold_deactivated (ts : Int) (L : List StoreOp) :
    ∀ st : EngineState, (L.foldl (applyOp ts) st).deactivated = st.deactivated := by
  induction L with
  | nil => intro st; rfl
  | cons op t ih =>
    intro st
    rw [List.foldl_cons, ih, applyOp_deactivated]

theorem opsFold_map_id (ts : Int) (L : List StoreOp) :
    ∀ st : EngineState, (L.foldl (applyOp ts) st).schedules.map (fun t => t.id)
      = st.schedules.map (fun t => t.id) := by
  induction L with
  | nil => intro st; rfl
  | cons op t ih =>
    intro st
    rw [List.foldl_cons, ih, applyOp_map_id]

theorem opsFold_ne (ts : Int) (L : List StoreOp) (sid : String) :
    ∀ st : EngineState, (∀ op ∈ L, opTarget op ≠ sid) →
      schedFilter (L.foldl (applyOp ts) st) sid = schedFilter st sid
      ∧ histFilter (L.foldl (applyOp ts) st) sid = histFilter st sid := by
  induction L with
  | nil => intro st _; exact ⟨rfl, rfl⟩
  | cons op t ih =>
    intro st h
    rw [List.foldl_cons]
    obtain ⟨e1, e2⟩ := ih (applyOp ts st op)
      (fun o ho => h o (List.mem_cons_of_mem _ ho))
    refine ⟨e1.trans ?_, e2.trans ?_⟩
    · exact applyOp_schedFilter_ne _ _ _ _ (h op (List.mem_cons_self _ _))
    · exact applyOp_histFilter_ne _ _ _ _ (h op (List.mem_cons_self _ _))

theorem processSchedule_target (exec : BackupSchedule → Bool × String × Int)
    (now : PyDateTime) (d : List String) (s : BackupSchedule) :
    ∀ op ∈ (processSchedule exec now d s).1, opTarget op = s.id := by
  intro op hop
  simp only [processSchedule] at hop
  split at hop
  · simp at hop
  split at hop
  · simp at hop
  split at hop
  · simp only [List.mem_singleton] at hop
    rw [hop]; rfl
  split at hop
  · rcases List.mem_append.mp hop with h1 | h2
    · split at h1 <;> simp only [List.mem_cons, List.mem_singleton,
        List.not_mem_nil, or_false] at h1 <;> rcases h1 with h | h <;>
        (rw [h]; rfl)
    · simp only [List.mem_singleton] at h2
      rw [h2]; rfl
  · simp at hop

theorem processSchedule_deact (exec : BackupSchedule → Bool × String × Int)
    (now : PyDateTime) (d : List String) (s : BackupSchedule) :
    ∀ x ∈ (processSchedule exec now d s).2, x ∈ d ∨ x = s.id := by
  intro x hx
  simp only [processSchedule] at hx
  split at hx
  · exact Or.inl hx
  split at hx
  · exact Or.inl hx
  split at hx
  · rcases List.mem_cons.mp hx with h | h
    · exact Or.inr h
    · exact Or.inl h
  split at hx
  · exact Or.inl hx
  · exact Or.inl hx

theorem foldTick_map_id (exec : BackupSchedule → Bool × String × Int)
    (now : PyDateTime) (L : List BackupSchedule) :
    ∀ (st : EngineState) (tr : List StoreOp),
      ((L.foldl (tickFold exec now) (st, tr)).1).schedules.map (fun t => t.id)
        = st.schedules.map (fun t => t.id) := by
  induction L with
  | nil => intro st tr; rfl
  | cons u t ih =>
    intro st tr
    rw [List.foldl_cons]
    show ((t.foldl (tickFold exec now) (tickFold exec now (st, tr) u)).1).schedules.map _ = _
    have hstep : (tickFold exec now (st, tr) u).1.schedules.map (fun v => v.id)
        = st.schedules.map (fun v => v.id) := by
      show (((processSchedule exec now st.deactivated u).1.foldl
          (applyOp (toEpochSec now)) st).schedules.map _) = _
      exact opsFold_map_id _ _ _
    rcases hx : tickFold exec now (st, tr) u with ⟨st1, tr1⟩
    rw [hx] at hstep
    rw [ih st1 tr1]
    exact hstep

theorem foldTick_frame (exec : BackupSchedule → Bool × String × Int)
    (now : PyDateTime) (sid : String) (L : List BackupSchedule) :
    ∀ (st : EngineState) (tr : List StoreOp), (∀ u ∈ L, u.id ≠ sid) →
      schedFilter (L.foldl (tickFold exec now) (st, tr)).1 sid
        = schedFilter st sid
      ∧ histFilter (L.foldl (tickFold exec now) (st, tr)).1 sid
        = histFilter st sid
      ∧ (∀ x ∈ ((L.foldl (tickFold exec now) (st, tr)).1).deactivated,
          x ∈ st.deactivated ∨ ∃ u ∈ L, x = u.id)
      ∧ (∃ ex, (L.foldl (tickFold exec now) (st, tr)).2 = tr ++ ex
          ∧ ∀ op ∈ ex, opTarget op ≠ sid) := by
  induction L with
  | nil =>
    intro st tr _
    refine ⟨rfl, rfl, fun x hx => Or.inl hx, ⟨[], ?_, ?_⟩⟩
    · exact (List.append_nil tr).symm
    · exact fun op hop => absurd hop (List.not_mem_nil op)
  | cons u t ih =>
    intro st tr h
    have hu : u.id ≠ sid := h u (List.mem_cons_self _ _)
    have htargets : ∀ op ∈ (processSchedule exec now st.deactivated u).1,
        opTarget op ≠ sid :=
      fun op hop => by
        rw [processSchedule_target exec now st.deactivated u op hop]; exact hu
    obtain ⟨e1, e2⟩ := opsFold_ne (toEpochSec now) _ sid st htargets
    have hsf1 : schedFilter (tickFold exec now (st, tr) u).1 sid
        = schedFilter st sid := e1
    have hhf1 : histFilter (tickFold exec now (st, tr) u).1 sid
        = histFilter st sid := e2
    rw [List.foldl_cons]
    obtain ⟨f1, f2, f3, ex, hex, hexne⟩ :=
      ih (tickFold exec now (st, tr) u).1 (tickFold exec now (st, tr) u).2
        (fun v hv => h v (List.mem_cons_of_mem _ hv))
    refine ⟨f1.trans hsf1, f2.trans hhf1, ?_, ?_⟩
    · intro x hx2
      rcases f3 x hx2 with hin | ⟨v, hv, he⟩
      · rcases processSchedule_deact exec now st.deactivated u x hin with h1 | h2
        · exact Or.inl h1
        · exact Or.inr ⟨u, List.mem_cons_self _ _, h2⟩
      · exact Or.inr ⟨v, List.mem_cons_of_mem _ hv, he⟩
    · refine ⟨(processSchedule exec now st.deactivated u).1 ++ ex, ?_, ?_⟩
      · have hstep : (List.foldl (tickFold exec now)
            (tickFold exec now (st, tr) u) t).2
            = (tickFold exec now (st, tr) u).2 ++ ex := hex
        rw [hstep]
        show (tr ++ (processSchedule exec now st.deactivated u).1) ++ ex = _
        rw [List.append_assoc]
      · intro op hop
        rcases List.mem_append.mp hop with h1 | h2
        · exact htargets op h1
        · exact hexne op h2

theorem schedFilter_singleton (l : List BackupSchedule) (s : BackupSchedule)
    (hmem : s ∈ l) (hnd : (l.map (fun t => t.id)).Nodup) :
    l.filter (fun t => t.id == s.id) = [s] := by
  induction l with
  | nil => cases hmem
  | cons a t ih =>
    rw [List.map_cons, List.nodup_cons] at hnd
    rcases List.mem_cons.mp hmem with heq | hmem'
    · subst heq
    
      rw [List.filter_cons, if_pos (by simp)]
      have hz : List.filter (fun u => u.id == s.id) t = [] := by
        rw [List.filter_eq_nil_iff]
        intro u hu hbeq
        exact hnd.1 (by
          have he : u.id = s.id := beq_iff_eq.mp hbeq
          rw [← he]
          exact List.mem_map.mpr ⟨u, hu, rfl⟩)
      rw [hz]
    · have hane : (a.id == s.id) = false := by
        refine beq_eq_false_iff_ne.mpr (fun hcontra => ?_)
        exact hnd.1 (hcontra ▸ List.mem_map.mpr ⟨s, hmem', rfl⟩)
      rw [List.filter_cons]
      simp only [hane, Bool.false_eq_true, if_false]
      exact ih hmem' hnd.2

theorem applyOp_histFilter_eq (ts : Int) (stX : EngineState) (sid status : String)
    (fp : Option String) (fs : Option Int) (em : Option String) :
    histFilter (applyOp ts stX (StoreOp.createHistory sid status fp fs em)) sid
      = histFilter stX sid ++ [⟨sid, status, fp, fs, em, ts⟩] := by
  show (stX.history ++ [(⟨sid, status, fp, fs, em, ts⟩ : HistoryRecord)]).filter
      (fun r => r.schedule_id == sid)
    = stX.history.filter (fun r => r.schedule_id == sid) ++ _
  rw [List.filter_append]
  simp

theorem schedFilter_updateSuccess (ts : Int) (stX : EngineState) (sid : String)
    (t : Int) (p : String) (sz : Int) :
    schedFilter (applyOp ts stX (StoreOp.updateSuccess sid t p sz)) sid
      = (schedFilter stX sid).map (fun u =>
          { u with last_error := none, last_error_time := none,
                   last_success_time := some t, last_backup_path := some p,
                   last_backup_size := some sz }) :=
  updById_filter_eq _ _ _ (fun _ => rfl)

theorem schedFilter_updateError (ts : Int) (stX : EngineState) (sid m : String)
    (t : Int) :
    schedFilter (applyOp ts stX (StoreOp.updateError sid m t)) sid
      = (schedFilter stX sid).map (fun u =>
          { u with last_error := some m, last_error_time := some t }) :=
  updById_filter_eq _ _ _ (fun _ => rfl)

theorem schedFilter_updateNext (ts : Int) (stX : EngineState) (sid : String)
    (d : PyDateTime) :
    schedFilter (applyOp ts stX (StoreOp.updateNext sid d)) sid
      = (schedFilter stX sid).map (fun u => { u with next_backup_date := d }) :=
  updById_filter_eq _ _ _ (fun _ => rfl)

theorem schedFilter_deactivate (ts : Int) (stX : EngineState) (sid : String) :
    schedFilter (applyOp ts stX (StoreOp.deactivate sid)) sid
      = (schedFilter stX sid).map (fun u => { u with active := false }) :=
  updById_filter_eq _ _ _ (fun _ => rfl)

theorem opsDue_fold (exec : BackupSchedule → Bool × String × Int)
    (now : PyDateTime) (stX : EngineState) (s : BackupSchedule)
    (hsf : schedFilter stX s.id = [s]) :
    schedFilter ((opsDue exec now s).foldl (applyOp (toEpochSec now)) stX) s.id
      = [dueResult exec now s]
    ∧ histFilter ((opsDue exec now s).foldl (applyOp (toEpochSec now)) stX) s.id
      = histFilter stX s.id ++ [dueRecord exec now s] := by
  cases hr : (exec s).1 with
  | false =>
    have hops : opsDue exec now s
        = [StoreOp.createHistory s.id "error" none none
             (some "Backup execution failed"),
           StoreOp.updateError s.id "Backup execution failed" (toEpochSec now),
           StoreOp.updateNext s.id (advanceNext s now).next_backup_date] := by
      simp [opsDue, hr]
    rw [hops, List.foldl_cons, List.foldl_cons, List.foldl_cons, List.foldl_nil]
    constructor
    · rw [schedFilter_updateNext, schedFilter_updateError]
      have hc : schedFilter (applyOp (toEpochSec now) stX
          (StoreOp.createHistory s.id "error" none none
            (some "Backup execution failed"))) s.id
          = schedFilter stX s.id := rfl
      rw [hc, hsf, List.map_cons, List.map_nil, List.map_cons, List.map_nil]
      simp [dueResult, hr]
    · have h3 : histFilter (applyOp (toEpochSec now) (applyOp (toEpochSec now)
          (applyOp (toEpochSec now) stX
            (StoreOp.createHistory s.id "error" none none
              (some "Backup execution failed")))
          (StoreOp.updateError s.id "Backup execution failed" (toEpochSec now)))
          (StoreOp.updateNext s.id (advanceNext s now).next_backup_date)) s.id
          = histFilter (applyOp (toEpochSec now) stX
              (StoreOp.createHistory s.id "error" none none
                (some "Backup execution failed"))) s.id := rfl
      rw [h3, applyOp_histFilter_eq]
      simp [dueRecord, hr]
  | true =>
    have hops : opsDue exec now s
        = [StoreOp.createHistory s.id "success" (some (exec s).2.1)
             (some (exec s).2.2) none,
           StoreOp.updateSuccess s.id (toEpochSec now) (exec s).2.1 (exec s).2.2,
           StoreOp.updateNext s.id (advanceNext s now).next_backup_date] := by
      simp [opsDue, hr]
    rw [hops, List.foldl_cons, List.foldl_cons, List.foldl_cons, List.foldl_nil]
    constructor
    · rw [schedFilter_updateNext, schedFilter_updateSuccess]
      have hc : schedFilter (applyOp (toEpochSec now) stX
          (StoreOp.createHistory s.id "success" (some (exec s).2.1)
            (some (exec s).2.2) none)) s.id
          = schedFilter stX s.id := rfl
      rw [hc, hsf, List.map_cons, List.map_nil, List.map_cons, List.map_nil]
      simp [dueResult, hr]
    · have h3 : histFilter (applyOp (toEpochSec now) (applyOp (toEpochSec now)
          (applyOp (toEpochSec now) stX
            (StoreOp.createHistory s.id "success" (some (exec s).2.1)
              (some (exec s).2.2) none))
          (StoreOp.updateSuccess s.id (toEpochSec now) (exec s).2.1 (exec s).2.2))
          (StoreOp.updateNext s.id (advanceNext s now).next_backup_date)) s.id
          = histFilter (applyOp (toEpochSec now) stX
              (StoreOp.createHistory s.id "success" (some (exec s).2.1)
                (some (exec s).2.2) none)) s.id := rfl
      rw [h3, applyOp_histFilter_eq]
      simp [dueRecord, hr]

theorem runTick_due_core (exec : BackupSchedule → Bool × String × Int)
    (now : PyDateTime) (st : EngineState) (s : BackupSchedule)
    (hnd : (st.schedules.map (fun t => t.id)).Nodup)
    (hmem : s ∈ st.schedules) (hact : s.active = true)
    (hdeact : s.id ∉ st.deactivated)
    (hstart : dtLt now s.start_datetime = false)
    (hend : endExpired s now = false)
    (hdue : dtLe s.next_backup_date now = true) :
    schedFilter (runTickTrace exec now st).1 s.id = [dueResult exec now s]
    ∧ histFilter (runTickTrace exec now st).1 s.id
        = histFilter st s.id ++ [dueRecord exec now s]
    ∧ ∃ ex1 ex2, (runTickTrace exec now st).2
        = ex1 ++ (opsDue exec now s ++ ex2)
      ∧ (∀ op ∈ ex1, opTarget op ≠ s.id)
      ∧ (∀ op ∈ ex2, opTarget op ≠ s.id) := by
  have hperm : (((st.schedules.filter (fun t => t.active)).insertionSort
      nextBackupLe)).Perm (st.schedules.filter (fun t => t.active)) :=
    List.perm_insertionSort _ _
  have hsA : s ∈ (st.schedules.filter (fun t => t.active)).insertionSort
      nextBackupLe :=
    hperm.mem_iff.mpr (List.mem_filter.mpr ⟨hmem, hact⟩)
  have hndF : ((st.schedules.filter (fun t => t.active)).map
      (fun t => t.id)).Nodup :=
    ((List.filter_sublist st.schedules).map (fun t => t.id)).nodup hnd
  have hndA : (((st.schedules.filter (fun t => t.active)).insertionSort
      nextBackupLe).map (fun t => t.id)).Nodup :=
    ((hperm.map (fun t => t.id)).symm).nodup hndF
  obtain ⟨A1, A2, hA⟩ := List.append_of_mem hsA
  rw [hA, List.map_append, List.map_cons, List.nodup_append] at hndA
  obtain ⟨hnd1, hnd2, hdisj⟩ := hndA
  have hA1 : ∀ u ∈ A1, u.id ≠ s.id := by
    intro u hu he
    exact hdisj (List.mem_map.mpr ⟨u, hu, rfl⟩)
      (by rw [he]; exact List.mem_cons_self _ _)
  have hA2 : ∀ u ∈ A2, u.id ≠ s.id := by
    intro u hu he
    rw [List.nodup_cons] at hnd2
    exact hnd2.1 (by rw [← he]; exact List.mem_map.mpr ⟨u, hu, rfl⟩)
  have hrun : runTickTrace exec now st
      = (A1 ++ s :: A2).foldl (tickFold exec now) (st, []) := by
    unfold runTickTrace
    rw [hA]
  rw [hrun, List.foldl_append, List.foldl_cons]
  obtain ⟨e1, e2, e3, ex1, hex1, hex1ne⟩ := foldTick_frame exec now s.id A1 st [] hA1
  have hsid1 : s.id ∉ (A1.foldl (tickFold exec now) (st, [])).1.deactivated := by
    intro hin
    rcases e3 _ hin with hin2 | ⟨u, hu, he⟩
    · exact hdeact hin2
    · exact hA1 u hu he.symm
  have hcont : ((A1.foldl (tickFold exec now) (st, [])).1.deactivated).contains
      s.id = false := by
    rw [Bool.eq_false_iff]
    intro hc
    exact hsid1 (by simpa using hc)
  have hps : processSchedule exec now
      (A1.foldl (tickFold exec now) (st, [])).1.deactivated s
      = (opsDue exec now s,
         (A1.foldl (tickFold exec now) (st, [])).1.deactivated) := by
    simp only [processSchedule, hcont, hstart, hend, hdue, Bool.false_eq_true,
      if_false, if_true, opsDue]
  have hsfP : schedFilter (A1.foldl (tickFold exec now) (st, [])).1 s.id = [s] :=
    e1.trans (schedFilter_singleton st.schedules s hmem hnd)
  obtain ⟨hSF, hHF⟩ := opsDue_fold exec now
    (A1.foldl (tickFold exec now) (st, [])).1 s hsfP
  have hstep1 : schedFilter
      (tickFold exec now (A1.foldl (tickFold exec now) (st, [])) s).1 s.id
      = [dueResult exec now s] := by
    show schedFilter ((processSchedule exec now
        (A1.foldl (tickFold exec now) (st, [])).1.deactivated s).1.foldl
          (applyOp (toEpochSec now))
          (A1.foldl (tickFold exec now) (st, [])).1) s.id = _
    rw [hps]
    exact hSF
  have hstep2 : histFilter
      (tickFold exec now (A1.foldl (tickFold exec now) (st, [])) s).1 s.id
      = histFilter st s.id ++ [dueRecord exec now s] := by
    show histFilter ((processSchedule exec now
        (A1.foldl (tickFold exec now) (st, [])).1.deactivated s).1.foldl
          (applyOp (toEpochSec now))
          (A1.foldl (tickFold exec now) (st, [])).1) s.id = _
    rw [hps]
    rw [hHF, e2]
  have hstep3 : (tickFold exec now (A1.foldl (tickFold exec now) (st, [])) s).2
      = ex1 ++ opsDue exec now s := by
    show (A1.foldl (tickFold exec now) (st, [])).2
        ++ (processSchedule exec now
          (A1.foldl (tickFold exec now) (st, [])).1.deactivated s).1
      = ex1 ++ opsDue exec now s
    rw [hps, hex1, List.nil_append]
  obtain ⟨g1, g2, g3, ex2, hex2, hex2ne⟩ := foldTick_frame exec now s.id A2
    (tickFold exec now (A1.foldl (tickFold exec now) (st, [])) s).1
    (tickFold exec now (A1.foldl (tickFold exec now) (st, [])) s).2 hA2
  refine ⟨g1.trans hstep1, g2.trans hstep2, ⟨ex1, ex2, ?_, hex1ne, hex2ne⟩⟩
  have htr : (A2.foldl (tickFold exec now)
      (tickFold exec now (A1.foldl (tickFold exec now) (st, [])) s)).2
      = (tickFold exec now (A1.foldl (tickFold exec now) (st, [])) s).2
        ++ ex2 := hex2
  rw [htr, hstep3, List.append_assoc]

theorem beq_deactivate_false (op : StoreOp) (sid : String)
    (hne : opTarget op ≠ sid) : (op == StoreOp.deactivate sid) = false := by
  refine beq_eq_false_iff_ne.mpr (fun he => ?_)
  rw [he] at hne
  exact hne rfl

theorem runTick_expired_core (exec : BackupSchedule → Bool × String × Int)
    (now : PyDateTime) (st : EngineState) (s : BackupSchedule)
    (hnd : (st.schedules.map (fun t => t.id)).Nodup)
    (hmem : s ∈ st.schedules) (hact : s.active = true)
    (hdeact : s.id ∉ st.deactivated)
    (hstart : dtLt now s.start_datetime = false)
    (hexp : endExpired s now = true) :
    schedFilter (runTickTrace exec now st).1 s.id = [{ s with active := false }]
    ∧ histFilter (runTickTrace exec now st).1 s.id = histFilter st s.id
    ∧ ((runTickTrace exec now st).2.countP
        (fun op => op == StoreOp.deactivate s.id)) = 1 := by
  have hperm : (((st.schedules.filter (fun t => t.active)).insertionSort
      nextBackupLe)).Perm (st.schedules.filter (fun t => t.active)) :=
    List.perm_insertionSort _ _
  have hsA : s ∈ (st.schedules.filter (fun t => t.active)).insertionSort
      nextBackupLe :=
    hperm.mem_iff.mpr (List.mem_filter.mpr ⟨hmem, hact⟩)
  have hndF : ((st.schedules.filter (fun t => t.active)).map
      (fun t => t.id)).Nodup :=
    ((List.filter_sublist st.schedules).map (fun t => t.id)).nodup hnd
  have hndA : (((st.schedules.filter (fun t => t.active)).insertionSort
      nextBackupLe).map (fun t => t.id)).Nodup :=
    ((hperm.map (fun t => t.id)).symm).nodup hndF
  obtain ⟨A1, A2, hA⟩ := List.append_of_mem hsA
  rw [hA, List.map_append, List.map_cons, List.nodup_append] at hndA
  obtain ⟨hnd1, hnd2, hdisj⟩ := hndA
  have hA1 : ∀ u ∈ A1, u.id ≠ s.id := by
    intro u hu he
    exact hdisj (List.mem_map.mpr ⟨u, hu, rfl⟩)
      (by rw [he]; exact List.mem_cons_self _ _)
  have hA2 : ∀ u ∈ A2, u.id ≠ s.id := by
    intro u hu he
    rw [List.nodup_cons] at hnd2
    exact hnd2.1 (by rw [← he]; exact List.mem_map.mpr ⟨u, hu, rfl⟩)
  have hrun : runTickTrace exec now st
      = (A1 ++ s :: A2).foldl (tickFold exec now) (st, []) := by
    unfold runTickTrace
    rw [hA]
  rw [hrun, List.foldl_append, List.foldl_cons]
  obtain ⟨e1, e2, e3, ex1, hex1, hex1ne⟩ := foldTick_frame exec now s.id A1 st [] hA1
  have hsid1 : s.id ∉ (A1.foldl (tickFold exec now) (st, [])).1.deactivated := by
    intro hin
    rcases e3 _ hin with hin2 | ⟨u, hu, he⟩
    · exact hdeact hin2
    · exact hA1 u hu he.symm
  have hcont : ((A1.foldl (tickFold exec now) (st, [])).1.deactivated).contains
      s.id = false := by
    rw [Bool.eq_false_iff]
    intro hc
    exact hsid1 (by simpa using hc)
  have hps : processSchedule exec now
      (A1.foldl (tickFold exec now) (st, [])).1.deactivated s
      = ([StoreOp.deactivate s.id],
         s.id :: (A1.foldl (tickFold exec now) (st, [])).1.deactivated) := by
    simp only [processSchedule, hcont, hstart, hexp, Bool.false_eq_true,
      if_false, if_true]
  have hsfP : schedFilter (A1.foldl (tickFold exec now) (st, [])).1 s.id = [s] :=
    e1.trans (schedFilter_singleton st.schedules s hmem hnd)
  have hstep1 : schedFilter
      (tickFold exec now (A1.foldl (tickFold exec now) (st, [])) s).1 s.id
      = [{ s with active := false }] := by
    show schedFilter ((processSchedule exec now
        (A1.foldl (tickFold exec now) (st, [])).1.deactivated s).1.foldl
          (applyOp (toEpochSec now))
          (A1.foldl (tickFold exec now) (st, [])).1) s.id = _
    rw [hps, List.foldl_cons, List.foldl_nil, schedFilter_deactivate, hsfP]
    rfl
  have hstep2 : histFilter
      (tickFold exec now (A1.foldl (tickFold exec now) (st, [])) s).1 s.id
      = histFilter st s.id := by
    show histFilter ((processSchedule exec now
        (A1.foldl (tickFold exec now) (st, [])).1.deactivated s).1.foldl
          (applyOp (toEpochSec now))
          (A1.foldl (tickFold exec now) (st, [])).1) s.id = _
    rw [hps, List.foldl_cons, List.foldl_nil]
    exact e2
  have hstep3 : (tickFold exec now (A1.foldl (tickFold exec now) (st, [])) s).2
      = ex1 ++ [StoreOp.deactivate s.id] := by
    show (A1.foldl (tickFold exec now) (st, [])).2
        ++ (processSchedule exec now
          (A1.foldl (tickFold exec now) (st, [])).1.deactivated s).1
      = ex1 ++ [StoreOp.deactivate s.id]
    rw [hps, hex1, List.nil_append]
  obtain ⟨g1, g2, g3, ex2, hex2, hex2ne⟩ := foldTick_frame exec now s.id A2
    (tickFold exec now (A1.foldl (tickFold exec now) (st, [])) s).1
    (tickFold exec now (A1.foldl (tickFold exec now) (st, [])) s).2 hA2
  refine ⟨g1.trans hstep1, g2.trans hstep2, ?_⟩
  have htr : (A2.foldl (tickFold exec now)
      (tickFold exec now (A1.foldl (tickFold exec now) (st, [])) s)).2
      = (tickFold exec now (A1.foldl (tickFold exec now) (st, [])) s).2
        ++ ex2 := hex2
  rw [htr, hstep3]
  rw [List.countP_append, List.countP_append]
  have hz1 : ex1.countP (fun op => op == StoreOp.deactivate s.id) = 0 := by
    rw [List.countP_eq_zero]
    intro op hop
    simp [beq_deactivate_false op s.id (hex1ne op hop)]
  have hz2 : ex2.countP (fun op => op == StoreOp.deactivate s.id) = 0 := by
    rw [List.countP_eq_zero]
    intro op hop
    simp [beq_deactivate_false op s.id (hex2ne op hop)]
  rw [hz1, hz2]
  simp

theorem runTick_map_id (exec : BackupSchedule → Bool × String × Int)
    (now : PyDateTime) (st : EngineState) :
    (runTickTrace exec now st).1.schedules.map (fun t => t.id)
      = st.schedules.map (fun t => t.id) :=
  foldTick_map_id exec now _ st []

theorem runTick_inactive_frame (exec : BackupSchedule → Bool × String × Int)
    (now : PyDateTime) (st : EngineState) (sid : String) (t : BackupSchedule)
    (hsf : schedFilter st sid = [t]) (hact : t.active = false) :
    schedFilter (runTickTrace exec now st).1 sid = [t]
    ∧ histFilter (runTickTrace exec now st).1 sid = histFilter st sid := by
  have hids : ∀ u ∈ (st.schedules.filter (fun v => v.active)).insertionSort
      nextBackupLe, u.id ≠ sid := by
    intro u hu hequ
    have humem : u ∈ st.schedules.filter (fun v => v.active) :=
      (List.perm_insertionSort _ _).subset hu
    obtain ⟨humem', huact⟩ := List.mem_filter.mp humem
    have hin : u ∈ schedFilter st sid :=
      List.mem_filter.mpr ⟨humem', by simp [hequ]⟩
    rw [hsf] at hin
    have heq : u = t := by simpa using hin
    rw [heq, hact] at huact
    cases huact
  obtain ⟨e1, e2, _, _⟩ := foldTick_frame exec now sid _ st [] hids
  exact ⟨e1.trans hsf, e2⟩

theorem runTicks_inactive (ticks : List TickInput) :
    ∀ (st : EngineState) (sid : String) (t : BackupSchedule),
      (st.schedules.map (fun u => u.id)).Nodup →
      schedFilter st sid = [t] → t.active = false →
      schedFilter (runTicks ticks st) sid = [t]
      ∧ histFilter (runTicks ticks st) sid = histFilter st sid := by
  induction ticks with
  | nil => intro st sid t _ hsf _; exact ⟨hsf, rfl⟩
  | cons tk r ih =>
    intro st sid t hnd hsf hact
    obtain ⟨g1, g2⟩ := runTick_inactive_frame tk.exec tk.now st sid t hsf hact
    have hnd2 : ((runTickTrace tk.exec tk.now st).1.schedules.map
        (fun u => u.id)).Nodup := by
      rw [runTick_map_id]
      exact hnd
    obtain ⟨h1, h2⟩ := ih (runTickTrace tk.exec tk.now st).1 sid t hnd2 g1 hact
    exact ⟨h1, h2.trans g2⟩

/-- C1: a due schedule (active, started, not expired, not in the
deactivated working set, `next_backup_date <= current_time`) with one of the
four known frequencies gets, in one tick, exactly one appended HistoryRecord
(status success or error) and a persisted `next_backup_date` equal to the
tick's current time plus the frequency offset — hourly +1 hour, daily
+1 day, weekly +7 days, monthly +1 calendar month — whatever the backup
attempt returned. -/
theorem c1_due_tick_one_history_and_advance
    (exec : BackupSchedule → Bool × String × Int) (now : PyDateTime)
    (st : EngineState) (s : BackupSchedule)
    (hnd : (st.schedules.map (fun t => t.id)).Nodup)
    (hmem : s ∈ st.schedules) (hact : s.active = true)
    (hdeact : s.id ∉ st.deactivated)
    (hstart : dtLt now s.start_datetime = false)
    (hend : endExpired s now = false)
    (hdue : dtLe s.next_backup_date now = true)
    (hfreq : s.frequency_type = "hourly" ∨ s.frequency_type = "daily"
      ∨ s.frequency_type = "weekly" ∨ s.frequency_type = "monthly") :
    histFilter (runTickTrace exec now st).1 s.id
      = histFilter st s.id ++ [dueRecord exec now s]
    ∧ ((dueRecord exec now s).status = "success"
        ∨ (dueRecord exec now s).status = "error")
    ∧ ∃ t, schedFilter (runTickTrace exec now st).1 s.id = [t]
        ∧ some t.next_backup_date = freqOffsetNext s.frequency_type now := by
  obtain ⟨hSF, hHF, -⟩ :=
    runTick_due_core exec now st s hnd hmem hact hdeact hstart hend hdue
  refine ⟨hHF, ?_, ⟨dueResult exec now s, hSF, ?_⟩⟩
  · cases hr : (exec s).1 <;> simp [dueRecord, hr]
  · have hnext : (dueResult exec now s).next_backup_date
        = (advanceNext s now).next_backup_date := by
      cases hr : (exec s).1 <;> simp [dueResult, hr]
    rw [hnext]
    rcases hfreq with hf | hf | hf | hf <;>
      simp [advanceNext, freqOffsetNext, hf]

/-- C1 witness: a concrete due hourly schedule under a failing backup
attempt. -/
theorem c1_due_tick_one_history_and_advance_witness :
    ((oneState schedHourly).schedules.map (fun t => t.id)).Nodup
    ∧ schedHourly ∈ (oneState schedHourly).schedules
    ∧ schedHourly.active = true
    ∧ schedHourly.id ∉ (oneState schedHourly).deactivated
    ∧ dtLt tickNow schedHourly.start_datetime = false
    ∧ endExpired schedHourly tickNow = false
    ∧ dtLe schedHourly.next_backup_date tickNow = true
    ∧ (histFilter (runTickTrace execFail tickNow (oneState schedHourly)).1
          schedHourly.id
        = histFilter (oneState schedHourly) schedHourly.id
          ++ [dueRecord execFail tickNow schedHourly]
      ∧ ((dueRecord execFail tickNow schedHourly).status = "success"
          ∨ (dueRecord execFail tickNow schedHourly).status = "error")
      ∧ ∃ t, schedFilter (runTickTrace execFail tickNow
            (oneState schedHourly)).1 schedHourly.id = [t]
          ∧ some t.next_backup_date
            = freqOffsetNext schedHourly.frequency_type tickNow) :=
  ⟨by decide, by decide, rfl, by decide, by decide, by decide, by decide,
    c1_due_tick_one_history_and_advance execFail tickNow (oneState schedHourly)
      schedHourly (by decide) (by decide) rfl (by decide) (by decide)
      (by decide) (by decide) (Or.inl rfl)⟩

/-- C9: when the backup attempt of a due schedule fails, the appended
HistoryRecord carries exactly the fixed string "Backup execution failed" as
its error message, and the schedule row's `last_error` / `last_error_time`
are set to that same constant and the tick's timestamp — for every executor
behaviour, so the underlying cause is never stored. -/
theorem c9_failure_stores_fixed_message
    (exec : BackupSchedule → Bool × String × Int) (now : PyDateTime)
    (st : EngineState) (s : BackupSchedule)
    (hnd : (st.schedules.map (fun t => t.id)).Nodup)
    (hmem : s ∈ st.schedules) (hact : s.active = true)
    (hdeact : s.id ∉ st.deactivated)
    (hstart : dtLt now s.start_datetime = false)
    (hend : endExpired s now = false)
    (hdue : dtLe s.next_backup_date now = true)
    (hfail : (exec s).1 = false) :
    histFilter (runTickTrace exec now st).1 s.id
      = histFilter st s.id
        ++ [⟨s.id, "error", none, none, some "Backup execution failed",
             toEpochSec now⟩]
    ∧ ∃ t, schedFilter (runTickTrace exec now st).1 s.id = [t]
        ∧ t.last_error = some "Backup execution failed"
        ∧ t.last_error_time = some (toEpochSec now) := by
  obtain ⟨hSF, hHF, -⟩ :=
    runTick_due_core exec now st s hnd hmem hact hdeact hstart hend hdue
  constructor
  · rw [hHF]
    simp [dueRecord, hfail]
  · exact ⟨dueResult exec now s, hSF, by simp [dueResult, hfail],
      by simp [dueResult, hfail]⟩

/-- C9 witness: a concrete failing tick stores the constant message. -/
theorem c9_failure_stores_fixed_message_witness :
    ((oneState schedHourly).schedules.map (fun t => t.id)).Nodup
    ∧ (execFail schedHourly).1 = false
    ∧ (histFilter (runTickTrace execFail tickNow (oneState schedHourly)).1
          schedHourly.id
        = histFilter (oneState schedHourly) schedHourly.id
          ++ [⟨schedHourly.id, "error", none, none,
               some "Backup execution failed", toEpochSec tickNow⟩]
      ∧ ∃ t, schedFilter (runTickTrace execFail tickNow
            (oneState schedHourly)).1 schedHourly.id = [t]
          ∧ t.last_error = some "Backup execution failed"
          ∧ t.last_error_time = some (toEpochSec tickNow)) :=
  ⟨by decide, rfl,
    c9_failure_stores_fixed_message execFail tickNow (oneState schedHourly)
      schedHourly (by decide) (by decide) rfl (by decide) (by decide)
      (by decide) (by decide) rfl⟩

/-- C10 counterexample: a due schedule with the unknown frequency "yearly".
The tick still issues an `update_next_backup_date` write — re-persisting the
unchanged value — contradicting the claim that `next_backup_date` is "not
re-persisted". -/
theorem c10_invalid_frequency_repersists_cex :
    (runTickTrace execFail tickNow (oneState schedYearly)).2
      = [StoreOp.createHistory "s2" "error" none none
           (some "Backup execution failed"),
         StoreOp.updateError "s2" "Backup execution failed" 1704845100,
         StoreOp.updateNext "s2" ⟨2024, 1, 10, 0, 0, 0, 0⟩]
    ∧ StoreOp.updateNext "s2" schedYearly.next_backup_date
        ∈ (runTickTrace execFail tickNow (oneState schedYearly)).2 := by
  exact ⟨by decide, by decide⟩

/-- C10 (amended): a due schedule whose `frequency_type` is not one of the
four known values still gets its backup attempt and exactly one appended
HistoryRecord; `next_backup_date` is not advanced, but it IS re-persisted
with its unchanged value (`update_next_backup_date` runs unconditionally),
so the schedule is due again on every subsequent tick. -/
theorem c10_invalid_frequency_no_advance
    (exec : BackupSchedule → Bool × String × Int) (now : PyDateTime)
    (st : EngineState) (s : BackupSchedule)
    (hnd : (st.schedules.map (fun t => t.id)).Nodup)
    (hmem : s ∈ st.schedules) (hact : s.active = true)
    (hdeact : s.id ∉ st.deactivated)
    (hstart : dtLt now s.start_datetime = false)
    (hend : endExpired s now = false)
    (hdue : dtLe s.next_backup_date now = true)
    (hbad : s.frequency_type ≠ "hourly" ∧ s.frequency_type ≠ "daily"
      ∧ s.frequency_type ≠ "weekly" ∧ s.frequency_type ≠ "monthly") :
    histFilter (runTickTrace exec now st).1 s.id
      = histFilter st s.id ++ [dueRecord exec now s]
    ∧ (∃ t, schedFilter (runTickTrace exec now st).1 s.id = [t]
        ∧ t.next_backup_date = s.next_backup_date)
    ∧ StoreOp.updateNext s.id s.next_backup_date
        ∈ (runTickTrace exec now st).2 := by
  obtain ⟨hSF, hHF, ex1, ex2, htr, -, -⟩ :=
    runTick_due_core exec now st s hnd hmem hact hdeact hstart hend hdue
  obtain ⟨h1, h2, h3, h4⟩ := hbad
  have hadv : advanceNext s now = s := by
    simp [advanceNext, beq_eq_false_iff_ne.mpr h1, beq_eq_false_iff_ne.mpr h2,
      beq_eq_false_iff_ne.mpr h3, beq_eq_false_iff_ne.mpr h4]
  refine ⟨hHF, ⟨dueResult exec now s, hSF, ?_⟩, ?_⟩
  · have hnext : (dueResult exec now s).next_backup_date
        = (advanceNext s now).next_backup_date := by
      cases hr : (exec s).1 <;> simp [dueResult, hr]
    rw [hnext, hadv]
  · rw [htr]
    have hin : StoreOp.updateNext s.id s.next_backup_date ∈ opsDue exec now s := by
      have he : StoreOp.updateNext s.id s.next_backup_date
          = StoreOp.updateNext s.id (advanceNext s now).next_backup_date := by
        rw [hadv]
      rw [he]
      simp [opsDue]
    exact List.mem_append.mpr (Or.inr (List.mem_append.mpr (Or.inl hin)))

/-- C10 witness: the amended statement at the concrete "yearly" schedule. -/
theorem c10_invalid_frequency_no_advance_witness :
    schedYearly.frequency_type ≠ "hourly"
    ∧ dtLe schedYearly.next_backup_date tickNow = true
    ∧ (histFilter (runTickTrace execFail tickNow (oneState schedYearly)).1
          schedYearly.id
        = histFilter (oneState schedYearly) schedYearly.id
          ++ [dueRecord execFail tickNow schedYearly]
      ∧ (∃ t, schedFilter (runTickTrace execFail tickNow
            (oneState schedYearly)).1 schedYearly.id = [t]
          ∧ t.next_backup_date = schedYearly.next_backup_date)
      ∧ StoreOp.updateNext schedYearly.id schedYearly.next_backup_date
          ∈ (runTickTrace execFail tickNow (oneState schedYearly)).2) :=
  ⟨by decide, by decide,
    c10_invalid_frequency_no_advance execFail tickNow (oneState schedYearly)
      schedYearly (by decide) (by decide) rfl (by decide) (by decide)
      (by decide) (by decide)
      ⟨by decide, by decide, by decide, by decide⟩⟩

/-- C5 counterexample: an active schedule whose `end_datetime` lies strictly
before the tick's current time but whose `start_datetime` is still in the
future. The start-check runs first (`tasks.py` line 208 before line 218), so
the tick issues no store write at all: the schedule is NOT deactivated,
contradicting the claim that every such schedule is deactivated on that
tick. -/
theorem c5_end_before_start_not_deactivated :
    schedEndBeforeStart.active = true
    ∧ (∃ e, schedEndBeforeStart.end_datetime = some e ∧ dtLt e tickNow = true)
    ∧ (runTickTrace execFail tickNow (oneState schedEndBeforeStart)).2 = []
    ∧ schedFilter (runTickTrace execFail tickNow
        (oneState schedEndBeforeStart)).1 "s3" = [schedEndBeforeStart] := by
  refine ⟨rfl, ⟨⟨2020, 1, 1, 0, 0, 0, 0⟩, rfl, by decide⟩, by decide, by decide⟩

/-- C5 (amended): an active, STARTED schedule (`start_datetime <=
current_time`, the guard the code checks first) whose `end_datetime` is set
and strictly before the tick's current time is deactivated exactly once
(one persisted deactivation write), gets no HistoryRecord, keeps its
`next_backup_date` unchanged, and is never attempted on that tick or any
subsequent tick. -/
theorem c5_expired_deactivated_once
    (exec : BackupSchedule → Bool × String × Int) (now : PyDateTime)
    (st : EngineState) (s : BackupSchedule) (e : PyDateTime)
    (hnd : (st.schedules.map (fun t => t.id)).Nodup)
    (hmem : s ∈ st.schedules) (hact : s.active = true)
    (hdeact : s.id ∉ st.deactivated)
    (hstart : dtLt now s.start_datetime = false)
    (hende : s.end_datetime = some e) (hexp : dtLt e now = true) :
    schedFilter (runTickTrace exec now st).1 s.id = [{ s with active := false }]
    ∧ histFilter (runTickTrace exec now st).1 s.id = histFilter st s.id
    ∧ ((runTickTrace exec now st).2.countP
        (fun op => op == StoreOp.deactivate s.id)) = 1
    ∧ ∀ future : List TickInput,
        schedFilter (runTicks future (runTickTrace exec now st).1) s.id
          = [{ s with active := false }]
        ∧ histFilter (runTicks future (runTickTrace exec now st).1) s.id
          = histFilter st s.id := by
  have hexpB : endExpired s now = true := by
    simp [endExpired, hende, hexp]
  obtain ⟨h1, h2, h3⟩ :=
    runTick_expired_core exec now st s hnd hmem hact hdeact hstart hexpB
  refine ⟨h1, h2, h3, ?_⟩
  intro future
  have hnd2 : ((runTickTrace exec now st).1.schedules.map
      (fun u => u.id)).Nodup := by
    rw [runTick_map_id]
    exact hnd
  obtain ⟨g1, g2⟩ := runTicks_inactive future (runTickTrace exec now st).1 s.id
    { s with active := false } hnd2 h1 rfl
  exact ⟨g1, g2.trans h2⟩

/-- C5 witness: a concrete started, expired schedule; the follow-up tick one
day later still does not touch it. -/
theorem c5_expired_deactivated_once_witness :
    schedExpired.active = true
    ∧ schedExpired.end_datetime = some ⟨2024, 1, 9, 0, 0, 0, 0⟩
    ∧ dtLt ⟨2024, 1, 9, 0, 0, 0, 0⟩ tickNow = true
    ∧ dtLt tickNow schedExpired.start_datetime = false
    ∧ (schedFilter (runTickTrace execFail tickNow (oneState schedExpired)).1
          schedExpired.id = [{ schedExpired with active := false }]
      ∧ histFilter (runTickTrace execFail tickNow (oneState schedExpired)).1
          schedExpired.id = histFilter (oneState schedExpired) schedExpired.id
      ∧ ((runTickTrace execFail tickNow (oneState schedExpired)).2.countP
          (fun op => op == StoreOp.deactivate schedExpired.id)) = 1)
    ∧ (schedFilter (runTicks [⟨execFail, ⟨2024, 1, 11, 0, 0, 0, 0⟩⟩]
          (runTickTrace execFail tickNow (oneState schedExpired)).1)
          schedExpired.id = [{ schedExpired with active := false }]
      ∧ histFilter (runTicks [⟨execFail, ⟨2024, 1, 11, 0, 0, 0, 0⟩⟩]
          (runTickTrace execFail tickNow (oneState schedExpired)).1)
          schedExpired.id
        = histFilter (oneState schedExpired) schedExpired.id) :=
  ⟨rfl, rfl, by decide, by decide,
    ⟨(c5_expired_deactivated_once execFail tickNow (oneState schedExpired)
        schedExpired ⟨2024, 1, 9, 0, 0, 0, 0⟩ (by decide) (by decide) rfl
        (by decide) (by decide) rfl (by decide)).1,
     (c5_expired_deactivated_once execFail tickNow (oneState schedExpired)
        schedExpired ⟨2024, 1, 9, 0, 0, 0, 0⟩ (by decide) (by decide) rfl
        (by decide) (by decide) rfl (by decide)).2.1,
     (c5_expired_deactivated_once execFail tickNow (oneState schedExpired)
        schedExpired ⟨2024, 1, 9, 0, 0, 0, 0⟩ (by decide) (by decide) rfl
        (by decide) (by decide) rfl (by decide)).2.2.1⟩,
    (c5_expired_deactivated_once execFail tickNow (oneState schedExpired)
        schedExpired ⟨2024, 1, 9, 0, 0, 0, 0⟩ (by decide) (by decide) rfl
        (by decide) (by decide) rfl (by decide)).2.2.2
      [⟨execFail, ⟨2024, 1, 11, 0, 0, 0, 0⟩⟩]⟩
